import Mathlib

/-! Fujitsu scroll device packet processing.

A shallow embedding of `drivers/input/mouse/fujitsu_scroll.c` and
`fujitsu_scroll.h`: the packet field decoding, the ring displacement
`shortest_circle_movement`, and the per-packet touch state machine
`fujitsu_scroll_process_packet`.

Machine integers are mathematical integers with explicit reduction modulo
`2^32`.  Kernel code is built with `-fno-strict-overflow`, so signed addition,
subtraction and negation wrap; the two trapping cases of the division
instruction (a zero divisor, and the most negative `int` divided by `-1`) are
the only failure path and are modelled by `none`.
-/

namespace FujitsuScroll

set_option autoImplicit false

/-! ## Machine integers -/

/-- Conversion of an integer value to `unsigned int`: reduction modulo `2^32`. -/
def to_uint (x : Int) : Int := x % 4294967296

/-- Conversion of an integer value to `int`: the representative of `x` modulo
`2^32` in the range `-2^31 .. 2^31 - 1`. -/
def to_int (x : Int) : Int := (x + 2147483648) % 4294967296 - 2147483648

/-- The most negative value of `int`. -/
def INT_MIN : Int := -2147483648

/-- Division of two `int` values: truncates toward zero; a zero divisor and
`INT_MIN / -1` trap. -/
def int_div (a b : Int) : Option Int :=
  if b = 0 then none
  else if a = INT_MIN ∧ b = -1 then none
  else some (Int.tdiv a b)

/-! ## Constants of `fujitsu_scroll.h` -/

/-- Size of the ring of positions, `FJS_RANGE 0x01000`. -/
def FJS_RANGE : Int := 0x01000

/-- The maximum position that can be reported, `FJS_MAX_POS (FJS_RANGE - 1)`. -/
def FJS_MAX_POS : Int := FJS_RANGE - 1

/-- Half-ring bound `FJS_MAX_POS_CHG (FJS_MAX_POS / 2)`, with the division of C. -/
def FJS_MAX_POS_CHG : Int := Int.tdiv FJS_MAX_POS 2

/-- Identification byte of the wheel, `FUJITSU_SCROLL_WHEEL_ID 04`. -/
def FUJITSU_SCROLL_WHEEL_ID : Nat := 4

/-- Default capacitance threshold, `FJS_CAPACITANCE_THRESHOLD 0x10`. -/
def FJS_CAPACITANCE_THRESHOLD : Int := 0x10

/-- Palm threshold, `FJS_CAPACITANCE_PALM_IGNORE_THRESHOLD 36`. -/
def FJS_CAPACITANCE_PALM_IGNORE_THRESHOLD : Nat := 36

/-- Default movement threshold, `FJS_POSITION_CHANGE_THRESHOLD 0xc0`. -/
def FJS_POSITION_CHANGE_THRESHOLD : Int := 0xc0

/-- Default divisor, `FJS_MOVEMENT_DIVISOR 128`. -/
def FJS_MOVEMENT_DIVISOR : Int := 128

/-- The kernel's `REL_WHEEL` event code (`linux/input-event-codes.h`). -/
def REL_WHEEL : Nat := 0x08

/-- The kernel's `REL_HWHEEL` event code (`linux/input-event-codes.h`). -/
def REL_HWHEEL : Nat := 0x06

/-- Axis of the wheel, `FJS_WHEEL_AXIS REL_WHEEL`. -/
def FJS_WHEEL_AXIS : Nat := REL_WHEEL

/-- Axis of the sensor, `FJS_SENSOR_AXIS REL_HWHEEL`. -/
def FJS_SENSOR_AXIS : Nat := REL_HWHEEL

/-! ## Ring displacement -/

/-- The function `int shortest_circle_movement(int new_pos, int prev_pos)`. -/
def shortest_circle_movement (new_pos prev_pos : Int) : Int :=
  let movement := to_int (new_pos - prev_pos)
  if movement > FJS_MAX_POS_CHG then
    to_int (movement - FJS_RANGE)
  else if movement < -FJS_MAX_POS_CHG then
    to_int (movement + FJS_RANGE)
  else
    movement

/-! ## Session data, configuration, packets and events -/

/-- The type `enum fujitsu_scroll_device_type`. -/
inductive fujitsu_scroll_device_type where
  | FUJITSU_SCROLL_WHEEL
  | FUJITSU_SCROLL_SENSOR
  deriving DecidableEq, Repr

/-- The type `struct fujitsu_scroll_data`.  The `unsigned int` fields hold values below
`2^32`; the one-bit fields are booleans. -/
structure fujitsu_scroll_data where
  type : fujitsu_scroll_device_type
  axis : Nat
  last_event_position : Nat
  event_start_position : Nat
  capacitance_avg : Nat
  finger_down : Bool
  changed_enough : Bool
  ignore_event : Bool
  guard_area_touched_prev : Bool
  deriving DecidableEq, Repr

/-- The module parameters `fujitsu_capacitance`, `fujitsu_threshold` and
`fujitsu_movement_divisor`, each a `short`. -/
structure module_params where
  fujitsu_capacitance : Int
  fujitsu_threshold : Int
  fujitsu_movement_divisor : Int
  deriving DecidableEq, Repr

/-- The values the module parameters are initialised with. -/
def default_params : module_params :=
  { fujitsu_capacitance := FJS_CAPACITANCE_THRESHOLD
    fujitsu_threshold := FJS_POSITION_CHANGE_THRESHOLD
    fujitsu_movement_divisor := FJS_MOVEMENT_DIVISOR }

/-- The first `FJS_PACKET_SIZE = 6` bytes of `psmouse->packet`. -/
structure packet where
  b0 : Fin 256
  b1 : Fin 256
  b2 : Fin 256
  b3 : Fin 256
  b4 : Fin 256
  b5 : Fin 256
  deriving DecidableEq, Repr

/-- What the driver hands to the input core: `input_report_rel(dev, code,
value)` and `input_sync(dev)`. -/
inductive input_event where
  | rel (code : Nat) (value : Int)
  | sync
  deriving DecidableEq, Repr

/-- Whether an event is a relative-motion report. -/
def input_event.is_rel : input_event → Bool
  | .rel _ _ => true
  | .sync => false

/-! ## Packet fields -/

/-- The assignment `position = ((psmouse->packet[1] & 0x0f) << 8) + psmouse->packet[2]`. -/
def position (pkt : packet) : Nat :=
  ((pkt.b1.val &&& 0x0f) <<< 8) + pkt.b2.val

/-- The assignment `capacitance = psmouse->packet[0] & 0x3f`. -/
def capacitance (pkt : packet) : Nat :=
  pkt.b0.val &&& 0x3f

/-- The assignment `guard_area_touched = psmouse->packet[4] & 0x10`. -/
def guard_area_touched (pkt : packet) : Nat :=
  pkt.b4.val &&& 0x10

/-! ## Session creation -/

/-- The session after `fujitsu_scroll_init`: `kzalloc` zeroes every field and
`fujitsu_scroll_query_hardware` sets `type` and `axis` from the first byte
`param0` of the device's reply. -/
def fujitsu_scroll_init (param0 : Nat) : fujitsu_scroll_data :=
  let priv : fujitsu_scroll_data :=
    { type := .FUJITSU_SCROLL_WHEEL
      axis := 0
      last_event_position := 0
      event_start_position := 0
      capacitance_avg := 0
      finger_down := false
      changed_enough := false
      ignore_event := false
      guard_area_touched_prev := false }
  if param0 = FUJITSU_SCROLL_WHEEL_ID then
    { priv with type := .FUJITSU_SCROLL_WHEEL, axis := FJS_WHEEL_AXIS }
  else
    { priv with type := .FUJITSU_SCROLL_SENSOR, axis := FJS_SENSOR_AXIS }

/-! ## Packet processing -/

/-- The pair `(movement, movement_since_start)` of the tracking branch of
`fujitsu_scroll_process_packet`: the ring displacement for the wheel, the
`unsigned int` difference assigned to an `int` for the sensor. -/
def movements (priv : fujitsu_scroll_data) (position : Nat) : Int × Int :=
  if priv.type = .FUJITSU_SCROLL_WHEEL then
    (shortest_circle_movement (to_int position) (to_int priv.last_event_position),
     shortest_circle_movement (to_int position) (to_int priv.event_start_position))
  else
    (to_int (to_uint ((position : Int) - priv.last_event_position)),
     to_int (to_uint ((position : Int) - priv.event_start_position)))

/-- The function `static void fujitsu_scroll_process_packet(struct psmouse *psmouse)`, with
`FUJITSU_SCROLL_DEBUG` undefined as in the source.  Returns the updated session
data and the events reported for this packet, or `none` when the division
traps. -/
def fujitsu_scroll_process_packet (cfg : module_params) (priv : fujitsu_scroll_data)
    (pkt : packet) : Option (fujitsu_scroll_data × List input_event) :=
  let position := position pkt
  let capacitance := capacitance pkt
  let guard_area_touched := guard_area_touched pkt
  let body : Option (fujitsu_scroll_data × List input_event) :=
    if to_uint capacitance ≥ to_uint cfg.fujitsu_capacitance then
      if !priv.finger_down then
        some ({ priv with
                  finger_down := true
                  last_event_position := position
                  event_start_position := position
                  ignore_event := priv.guard_area_touched_prev
                  capacitance_avg := capacitance }, [])
      else
        let movement := (movements priv position).1
        let movement_since_start := (movements priv position).2
        let priv1 :=
          if !priv.changed_enough then
            if movement_since_start > cfg.fujitsu_threshold ∨
                movement_since_start < to_int (-cfg.fujitsu_threshold) then
              { priv with changed_enough := true }
            else priv
          else priv
        let priv2 :=
          if guard_area_touched ≠ 0 then
            if !priv1.ignore_event then { priv1 with ignore_event := true } else priv1
          else priv1
        let priv3 :=
          if capacitance > FJS_CAPACITANCE_PALM_IGNORE_THRESHOLD then
            if !priv2.ignore_event then { priv2 with ignore_event := true } else priv2
          else priv2
        if priv3.changed_enough then
          match int_div (to_int (-movement)) cfg.fujitsu_movement_divisor with
          | none => none
          | some device_movement =>
            if device_movement ≠ 0 ∧ !priv3.ignore_event then
              some ({ priv3 with last_event_position := position },
                    [input_event.rel priv3.axis device_movement])
            else
              some (priv3, [])
        else
          some (priv3, [])
    else if priv.finger_down then
      let priv1 :=
        if guard_area_touched ≠ 0 then { priv with ignore_event := true } else priv
      let priv2 := { priv1 with finger_down := false }
      -- the `movement_since_start` assigned here is read only by debug output
      let priv3 := { priv2 with changed_enough := false }
      some (priv3, [])
    else
      some (priv, [])
  match body with
  | none => none
  | some (priv4, out) =>
    some ({ priv4 with guard_area_touched_prev := decide (guard_area_touched ≠ 0) },
          out ++ [input_event.sync])

/-- The packets of a stream processed one after the other, as
`fujitsu_scroll_process_byte` does for each full packet; the reported events
are concatenated in order. -/
def process_packets (cfg : module_params) :
    fujitsu_scroll_data → List packet → Option (fujitsu_scroll_data × List input_event)
  | priv, [] => some (priv, [])
  | priv, pkt :: rest =>
    match fujitsu_scroll_process_packet cfg priv pkt with
    | none => none
    | some (priv1, out1) =>
      match process_packets cfg priv1 rest with
      | none => none
      | some (priv2, out2) => some (priv2, out1 ++ out2)

/-- The relative-motion reports among a list of events. -/
def motion_events (out : List input_event) : List input_event :=
  out.filter input_event.is_rel

/-- A packet whose six bytes are all determined by the three decoded fields:
capacitance in byte 0, position split over bytes 1 and 2, the edge-guard bit in
byte 4. -/
def mk_packet (cap pos : Nat) (guard : Bool) : packet :=
  { b0 := Fin.ofNat (cap % 64)
    b1 := Fin.ofNat ((pos / 256) % 16)
    b2 := Fin.ofNat (pos % 256)
    b3 := 0
    b4 := if guard then 0x10 else 0
    b5 := 0 }

/-! ## Quantities named by the properties -/

/-- The test `capacitance >= fujitsu_capacitance` of
`fujitsu_scroll_process_packet`; the `short` is converted to `unsigned int`. -/
def touching (cfg : module_params) (pkt : packet) : Bool :=
  decide (to_uint (capacitance pkt) ≥ to_uint cfg.fujitsu_capacitance)

/-- The value of `changed_enough` once the tracking branch has made its
hysteresis check. -/
def changed_enough_after_check (cfg : module_params) (priv : fujitsu_scroll_data)
    (pkt : packet) : Bool :=
  priv.changed_enough ||
    decide ((movements priv (position pkt)).2 > cfg.fujitsu_threshold ∨
      (movements priv (position pkt)).2 < to_int (-cfg.fujitsu_threshold))

/-- The value of `ignore_event` once the tracking branch has made its guard
and palm checks. -/
def ignore_event_after_checks (priv : fujitsu_scroll_data) (pkt : packet) : Bool :=
  priv.ignore_event || decide (guard_area_touched pkt ≠ 0) ||
    decide (capacitance pkt > FJS_CAPACITANCE_PALM_IGNORE_THRESHOLD)

/-- The value `- movement / fujitsu_movement_divisor` for a divisor with which
the division does not trap. -/
def device_movement (cfg : module_params) (priv : fujitsu_scroll_data)
    (pkt : packet) : Int :=
  Int.tdiv (to_int (-(movements priv (position pkt)).1)) cfg.fujitsu_movement_divisor

/-- The session data the tracking branch leaves when it reports nothing. -/
def tracked (cfg : module_params) (priv : fujitsu_scroll_data) (pkt : packet) :
    fujitsu_scroll_data :=
  { priv with
      changed_enough := changed_enough_after_check cfg priv pkt
      ignore_event := ignore_event_after_checks priv pkt
      guard_area_touched_prev := decide (guard_area_touched pkt ≠ 0) }

/-- The condition under which the tracking branch reports motion: the finger
was already down, the capacitance reaches the threshold, `changed_enough` holds
after the hysteresis check, `ignore_event` is clear after the guard and palm
checks, and `device_movement` is non-zero. -/
def motion_condition (cfg : module_params) (priv : fujitsu_scroll_data)
    (pkt : packet) : Bool :=
  priv.finger_down &&
    decide ((capacitance pkt : Int) ≥ cfg.fujitsu_capacitance) &&
    changed_enough_after_check cfg priv pkt &&
    !ignore_event_after_checks priv pkt &&
    decide (device_movement cfg priv pkt ≠ 0)

/-- The specified device movement, following the words of the specification:
`-(movement / movement_divisor)` with integer division truncating toward
zero. -/
def spec_device_movement (movement movement_divisor : Int) : Int :=
  -(Int.tdiv movement movement_divisor)

/-- The largest magnitude of `movement` for a device identified by `param0`:
half the ring, 2048, for the wheel and the full range, 4095, for the sensor. -/
def movement_limit (param0 : Nat) : Int :=
  if param0 = FUJITSU_SCROLL_WHEEL_ID then 2048 else 4095

/-! ## Shared lemmas -/

theorem FJS_MAX_POS_CHG_eq : FJS_MAX_POS_CHG = 2047 := by decide

theorem FJS_RANGE_eq : FJS_RANGE = 4096 := by decide

theorem to_int_of_small (x : Int) (h1 : -2147483648 ≤ x) (h2 : x < 2147483648) :
    to_int x = x := by
  unfold to_int
  omega

/-- On ring positions the displacement is the raw difference folded once. -/
theorem shortest_circle_movement_eq (new_pos prev_pos : Int)
    (hn0 : 0 ≤ new_pos) (hn1 : new_pos ≤ 4095)
    (hp0 : 0 ≤ prev_pos) (hp1 : prev_pos ≤ 4095) :
    shortest_circle_movement new_pos prev_pos =
      if new_pos - prev_pos > 2047 then new_pos - prev_pos - 4096
      else if new_pos - prev_pos < -2047 then new_pos - prev_pos + 4096
      else new_pos - prev_pos := by
  unfold shortest_circle_movement
  simp only [FJS_MAX_POS_CHG_eq, FJS_RANGE_eq]
  rw [to_int_of_small (new_pos - prev_pos) (by omega) (by omega)]
  split_ifs <;> first | rfl | (apply to_int_of_small <;> omega)

/-! ## Claims about the ring displacement -/

/-- C1: for positions in `[0, 4095]` the ring displacement
`shortest_circle_movement new_pos prev_pos` has absolute value at most 2048. -/
theorem shortest_circle_movement_abs_le (new_pos prev_pos : Int)
    (hn0 : 0 ≤ new_pos) (hn1 : new_pos ≤ 4095)
    (hp0 : 0 ≤ prev_pos) (hp1 : prev_pos ≤ 4095) :
    |shortest_circle_movement new_pos prev_pos| ≤ 2048 := by
  rw [shortest_circle_movement_eq new_pos prev_pos hn0 hn1 hp0 hp1, abs_le]
  split_ifs <;> constructor <;> omega

theorem shortest_circle_movement_abs_le_witness :
    |shortest_circle_movement 2048 0| ≤ 2048 :=
  shortest_circle_movement_abs_le 2048 0 (by decide) (by decide) (by decide) (by decide)

/-- C2: for positions in `[0, 4095]` the ring displacement is antisymmetric,
`shortest_circle_movement new_pos prev_pos =
 -shortest_circle_movement prev_pos new_pos`, also when the two positions are
exactly half a ring (2048) apart. -/
theorem shortest_circle_movement_antisymm (new_pos prev_pos : Int)
    (hn0 : 0 ≤ new_pos) (hn1 : new_pos ≤ 4095)
    (hp0 : 0 ≤ prev_pos) (hp1 : prev_pos ≤ 4095) :
    shortest_circle_movement new_pos prev_pos =
      -shortest_circle_movement prev_pos new_pos := by
  rw [shortest_circle_movement_eq new_pos prev_pos hn0 hn1 hp0 hp1,
    shortest_circle_movement_eq prev_pos new_pos hp0 hp1 hn0 hn1]
  split_ifs <;> omega

theorem shortest_circle_movement_antisymm_witness :
    shortest_circle_movement 2048 0 = -shortest_circle_movement 0 2048 :=
  shortest_circle_movement_antisymm 2048 0 (by decide) (by decide) (by decide) (by decide)

/-- C3: for positions in `[0, 4095]` the ring displacement is the
minimal-magnitude signed path on a ring of size 4096: the result is congruent
to `new_pos - prev_pos` modulo 4096 and no integer congruent to that difference
has smaller absolute value. -/
theorem shortest_circle_movement_minimal (new_pos prev_pos : Int)
    (hn0 : 0 ≤ new_pos) (hn1 : new_pos ≤ 4095)
    (hp0 : 0 ≤ prev_pos) (hp1 : prev_pos ≤ 4095) :
    (shortest_circle_movement new_pos prev_pos - (new_pos - prev_pos)) % 4096 = 0 ∧
    ∀ k : Int, |shortest_circle_movement new_pos prev_pos| ≤
      |new_pos - prev_pos + 4096 * k| := by
  rw [shortest_circle_movement_eq new_pos prev_pos hn0 hn1 hp0 hp1]
  refine ⟨by split_ifs <;> omega, fun k => ?_⟩
  rcases abs_cases (new_pos - prev_pos + 4096 * k) with ⟨e, _⟩ | ⟨e, _⟩ <;>
    rw [e, abs_le] <;> split_ifs <;> constructor <;> omega

theorem shortest_circle_movement_minimal_witness :
    shortest_circle_movement 10 4090 = 16 ∧
    (shortest_circle_movement 10 4090 - (10 - 4090)) % 4096 = 0 ∧
    ∀ k : Int, |shortest_circle_movement 10 4090| ≤ |10 - 4090 + 4096 * k| :=
  ⟨by decide,
    shortest_circle_movement_minimal 10 4090 (by decide) (by decide) (by decide) (by decide)⟩

/-! ## Lemmas about the packet fields and the processing step -/

theorem position_le (pkt : packet) : position pkt ≤ 4095 := by
  unfold position
  have h1 : pkt.b1.val &&& 0x0f ≤ 0x0f := Nat.and_le_right
  have h2 : pkt.b2.val < 256 := pkt.b2.isLt
  rw [Nat.shiftLeft_eq]
  omega

theorem capacitance_le (pkt : packet) : capacitance pkt ≤ 63 := by
  unfold capacitance
  exact Nat.and_le_right

theorem process_packet_congr (cfg : module_params) (priv : fujitsu_scroll_data)
    (p q : packet) (hpos : position p = position q)
    (hcap : capacitance p = capacitance q)
    (hguard : guard_area_touched p = guard_area_touched q) :
    fujitsu_scroll_process_packet cfg priv p = fujitsu_scroll_process_packet cfg priv q := by
  unfold fujitsu_scroll_process_packet
  simp only [hpos, hcap, hguard]

theorem process_packet_start (cfg : module_params) (priv : fujitsu_scroll_data)
    (pkt : packet) (ht : touching cfg pkt = true) (hf : priv.finger_down = false) :
    fujitsu_scroll_process_packet cfg priv pkt =
      some ({ priv with
                finger_down := true
                last_event_position := position pkt
                event_start_position := position pkt
                ignore_event := priv.guard_area_touched_prev
                capacitance_avg := capacitance pkt
                guard_area_touched_prev := decide (guard_area_touched pkt ≠ 0) },
            [input_event.sync]) := by
  unfold touching at ht
  rw [decide_eq_true_eq] at ht
  unfold fujitsu_scroll_process_packet
  simp only [ht, hf, if_true, Bool.not_false, List.nil_append]

theorem process_packet_idle (cfg : module_params) (priv : fujitsu_scroll_data)
    (pkt : packet) (ht : touching cfg pkt = false) (hf : priv.finger_down = false) :
    fujitsu_scroll_process_packet cfg priv pkt =
      some ({ priv with guard_area_touched_prev := decide (guard_area_touched pkt ≠ 0) },
            [input_event.sync]) := by
  unfold touching at ht
  rw [decide_eq_false_iff_not] at ht
  unfold fujitsu_scroll_process_packet
  simp [ht, hf]

theorem process_packet_end (cfg : module_params) (priv : fujitsu_scroll_data)
    (pkt : packet) (ht : touching cfg pkt = false) (hf : priv.finger_down = true) :
    fujitsu_scroll_process_packet cfg priv pkt =
      some ({ priv with
                ignore_event := priv.ignore_event || decide (guard_area_touched pkt ≠ 0)
                finger_down := false
                changed_enough := false
                guard_area_touched_prev := decide (guard_area_touched pkt ≠ 0) },
            [input_event.sync]) := by
  unfold touching at ht
  rw [decide_eq_false_iff_not] at ht
  unfold fujitsu_scroll_process_packet
  by_cases hg : guard_area_touched pkt = 0 <;> simp [ht, hf, hg]

theorem process_packet_track_quiet (cfg : module_params) (priv : fujitsu_scroll_data)
    (pkt : packet) (ht : touching cfg pkt = true) (hf : priv.finger_down = true)
    (hc : changed_enough_after_check cfg priv pkt = false) :
    fujitsu_scroll_process_packet cfg priv pkt =
      some (tracked cfg priv pkt, [input_event.sync]) := by
  unfold touching at ht
  rw [decide_eq_true_eq] at ht
  have hc2 := hc
  unfold changed_enough_after_check at hc
  rw [Bool.or_eq_false_iff, decide_eq_false_iff_not] at hc
  obtain ⟨hce, hm⟩ := hc
  unfold fujitsu_scroll_process_packet tracked
  rw [hc2]
  unfold ignore_event_after_checks
  obtain ⟨ty, ax, l, st, ca, fd, ce, ie, gp⟩ := priv
  simp only at hf hce hm
  subst hf hce
  by_cases hg : guard_area_touched pkt = 0 <;>
    by_cases hp : capacitance pkt > FJS_CAPACITANCE_PALM_IGNORE_THRESHOLD <;>
    cases ie <;> simp [ht, hm, hg, hp]

theorem process_packet_track_div (cfg : module_params) (priv : fujitsu_scroll_data)
    (pkt : packet) (ht : touching cfg pkt = true) (hf : priv.finger_down = true)
    (hc : changed_enough_after_check cfg priv pkt = true) :
    fujitsu_scroll_process_packet cfg priv pkt =
      match int_div (to_int (-(movements priv (position pkt)).1))
          cfg.fujitsu_movement_divisor with
      | none => none
      | some dm =>
        if dm ≠ 0 ∧ ignore_event_after_checks priv pkt = false then
          some ({ tracked cfg priv pkt with last_event_position := position pkt },
                [input_event.rel priv.axis dm, input_event.sync])
        else
          some (tracked cfg priv pkt, [input_event.sync]) := by
  unfold touching at ht
  rw [decide_eq_true_eq] at ht
  have hc2 := hc
  unfold changed_enough_after_check at hc
  rw [Bool.or_eq_true, decide_eq_true_eq] at hc
  unfold fujitsu_scroll_process_packet tracked
  rw [hc2]
  unfold ignore_event_after_checks
  obtain ⟨ty, ax, l, st, ca, fd, ce, ie, gp⟩ := priv
  simp only at hf hc
  subst hf
  cases hd : int_div (to_int (-(movements ⟨ty, ax, l, st, ca, true, ce, ie, gp⟩ (position pkt)).1))
      cfg.fujitsu_movement_divisor with
  | none =>
    by_cases hg : guard_area_touched pkt = 0 <;>
      by_cases hp : capacitance pkt > FJS_CAPACITANCE_PALM_IGNORE_THRESHOLD <;>
      cases ie <;> cases ce <;> simp [ht, hg, hp, hd] <;> simp at hc <;> simp [hc]
  | some dm =>
    by_cases hz : dm = 0 <;>
    by_cases hg : guard_area_touched pkt = 0 <;>
      by_cases hp : capacitance pkt > FJS_CAPACITANCE_PALM_IGNORE_THRESHOLD <;>
      cases ie <;> cases ce <;> simp [ht, hg, hp, hd, hz] <;> simp at hc <;> simp [hc, hz]

theorem int_div_pos (a b : Int) (hb : 0 < b) : int_div a b = some (Int.tdiv a b) := by
  unfold int_div
  rw [if_neg (by omega), if_neg (by omega)]

theorem int_div_of_ne (a b : Int) (hb : b ≠ 0) (ha : a ≠ INT_MIN) :
    int_div a b = some (Int.tdiv a b) := by
  unfold int_div
  rw [if_neg hb, if_neg (fun h => ha h.1)]

theorem touching_iff (cfg : module_params) (pkt : packet)
    (h0 : 0 < cfg.fujitsu_capacitance) (h1 : cfg.fujitsu_capacitance ≤ 32767) :
    touching cfg pkt = true ↔ (capacitance pkt : Int) ≥ cfg.fujitsu_capacitance := by
  have hc := capacitance_le pkt
  unfold touching to_uint
  rw [decide_eq_true_eq]
  omega

theorem movement_bounds (priv : fujitsu_scroll_data) (pkt : packet)
    (hl : priv.last_event_position ≤ 4095) :
    -4095 ≤ (movements priv (position pkt)).1 ∧ (movements priv (position pkt)).1 ≤ 4095 := by
  have hp := position_le pkt
  unfold movements
  split
  · simp only
    rw [to_int_of_small _ (by omega) (by omega), to_int_of_small _ (by omega) (by omega),
      shortest_circle_movement_eq _ _ (by omega) (by omega) (by omega) (by omega)]
    split_ifs <;> omega
  · simp only
    unfold to_int to_uint
    omega

theorem motion_events_sync : motion_events [input_event.sync] = [] := rfl

theorem motion_events_append (a b : List input_event) :
    motion_events (a ++ b) = motion_events a ++ motion_events b := by
  unfold motion_events
  exact List.filter_append a b

/-- A packet of a touch in progress is processed without a trap when the
divisor is non-zero and the stored position is a ring position. -/
theorem process_packet_track_total (cfg : module_params) (priv : fujitsu_scroll_data)
    (pkt : packet) (hd : cfg.fujitsu_movement_divisor ≠ 0)
    (ht : touching cfg pkt = true) (hf : priv.finger_down = true)
    (hl : priv.last_event_position ≤ 4095) :
    ∃ priv1 out, fujitsu_scroll_process_packet cfg priv pkt = some (priv1, out) ∧
      priv1.finger_down = true ∧ priv1.last_event_position ≤ 4095 ∧
      priv1.ignore_event = ignore_event_after_checks priv pkt ∧
      (ignore_event_after_checks priv pkt = true → out = [input_event.sync]) := by
  have hm := movement_bounds priv pkt hl
  have hp := position_le pkt
  cases hc : changed_enough_after_check cfg priv pkt
  · exact ⟨_, _, process_packet_track_quiet cfg priv pkt ht hf hc, hf, hl, rfl, fun _ => rfl⟩
  · have hq : int_div (to_int (-(movements priv (position pkt)).1))
          cfg.fujitsu_movement_divisor = some (device_movement cfg priv pkt) := by
      apply int_div_of_ne _ _ hd
      rw [to_int_of_small _ (by omega) (by omega)]
      unfold INT_MIN
      omega
    rw [process_packet_track_div cfg priv pkt ht hf hc, hq]
    by_cases hcond : device_movement cfg priv pkt ≠ 0 ∧
        ignore_event_after_checks priv pkt = false
    · refine ⟨_, _, if_pos hcond, hf, hp, rfl, fun h => ?_⟩
      rw [hcond.2] at h
      exact absurd h (by decide)
    · exact ⟨_, _, if_neg hcond, hf, hl, rfl, fun _ => rfl⟩

theorem ignore_event_after_checks_sticky (priv : fujitsu_scroll_data) (pkt : packet)
    (hi : priv.ignore_event = true) : ignore_event_after_checks priv pkt = true := by
  unfold ignore_event_after_checks
  rw [hi]
  rfl

theorem ignore_event_after_checks_palm (priv : fujitsu_scroll_data) (pkt : packet)
    (hpalm : capacitance pkt > FJS_CAPACITANCE_PALM_IGNORE_THRESHOLD) :
    ignore_event_after_checks priv pkt = true := by
  unfold ignore_event_after_checks
  rw [decide_eq_true hpalm, Bool.or_true]

/-- The packets of a touch in progress are processed without a trap. -/
theorem process_packets_touch_total (cfg : module_params) (pkts : List packet)
    (hd : cfg.fujitsu_movement_divisor ≠ 0)
    (priv : fujitsu_scroll_data)
    (hall : ∀ q ∈ pkts, touching cfg q = true)
    (hf : priv.finger_down = true) (hl : priv.last_event_position ≤ 4095) :
    ∃ priv1 out, process_packets cfg priv pkts = some (priv1, out) ∧
      priv1.finger_down = true ∧ priv1.last_event_position ≤ 4095 := by
  induction pkts generalizing priv with
  | nil => exact ⟨priv, [], rfl, hf, hl⟩
  | cons p rest ih =>
    obtain ⟨s1, o1, h1, hf1, hl1, _, _⟩ :=
      process_packet_track_total cfg priv p hd (hall p (List.mem_cons_self p rest)) hf hl
    obtain ⟨s2, o2, h2, hf2, hl2⟩ :=
      ih s1 (fun q hq => hall q (List.mem_cons_of_mem p hq)) hf1 hl1
    refine ⟨s2, o1 ++ o2, ?_, hf2, hl2⟩
    simp only [process_packets, h1, h2]

/-- Once `ignore_event` is set, the remaining packets of the touch report no
motion and leave it set. -/
theorem process_packets_suppressed (cfg : module_params) (pkts : List packet)
    (hd : cfg.fujitsu_movement_divisor ≠ 0)
    (priv : fujitsu_scroll_data)
    (hall : ∀ q ∈ pkts, touching cfg q = true)
    (hf : priv.finger_down = true) (hl : priv.last_event_position ≤ 4095)
    (hi : priv.ignore_event = true) :
    ∃ priv1 out, process_packets cfg priv pkts = some (priv1, out) ∧
      priv1.finger_down = true ∧ priv1.ignore_event = true ∧ motion_events out = [] := by
  induction pkts generalizing priv with
  | nil => exact ⟨priv, [], rfl, hf, hi, rfl⟩
  | cons p rest ih =>
    obtain ⟨s1, o1, h1, hf1, hl1, hi1, ho1⟩ :=
      process_packet_track_total cfg priv p hd (hall p (List.mem_cons_self p rest)) hf hl
    have hs := ignore_event_after_checks_sticky priv p hi
    obtain ⟨s2, o2, h2, hf2, hi2, ho2⟩ :=
      ih s1 (fun q hq => hall q (List.mem_cons_of_mem p hq)) hf1 hl1 (hi1.trans hs)
    refine ⟨s2, o1 ++ o2, ?_, hf2, hi2, ?_⟩
    · simp only [process_packets, h1, h2]
    · rw [motion_events_append, ho1 hs, motion_events_sync, ho2, List.append_nil]

theorem process_packets_append (cfg : module_params) (xs ys : List packet)
    (priv priv1 priv2 : fujitsu_scroll_data) (out1 out2 : List input_event)
    (h1 : process_packets cfg priv xs = some (priv1, out1))
    (h2 : process_packets cfg priv1 ys = some (priv2, out2)) :
    process_packets cfg priv (xs ++ ys) = some (priv2, out1 ++ out2) := by
  induction xs generalizing priv out1 with
  | nil =>
    simp only [process_packets, Option.some.injEq, Prod.mk.injEq] at h1
    obtain ⟨rfl, rfl⟩ := h1
    simpa using h2
  | cons p rest ih =>
    simp only [process_packets] at h1
    cases hp : fujitsu_scroll_process_packet cfg priv p with
    | none => simp [hp] at h1
    | some r =>
      obtain ⟨s, o⟩ := r
      rw [hp] at h1
      simp only at h1
      cases hr : process_packets cfg s rest with
      | none => simp [hr] at h1
      | some r2 =>
        obtain ⟨s3, o3⟩ := r2
        rw [hr] at h1
        simp only [Option.some.injEq, Prod.mk.injEq] at h1
        obtain ⟨rfl, rfl⟩ := h1
        have hrest := ih s o3 hr
        rw [List.cons_append]
        simp only [process_packets, hp, hrest, List.append_assoc]


/-! ## Claims about the packet fields -/

/-- C4: under the sensor (linear) topology, for a sample position and stored
positions in `[0, 4095]`, both `movement` and `movement_since_start` of
`fujitsu_scroll_process_packet` equal the exact integer differences
`position - last_event_position` and `position - event_start_position`. -/
theorem sensor_movements_exact (priv : fujitsu_scroll_data) (pkt : packet)
    (ht : priv.type = .FUJITSU_SCROLL_SENSOR)
    (hl : priv.last_event_position ≤ 4095)
    (hs : priv.event_start_position ≤ 4095) :
    movements priv (position pkt) =
      ((position pkt : Int) - (priv.last_event_position : Int),
       (position pkt : Int) - (priv.event_start_position : Int)) := by
  have hp := position_le pkt
  unfold movements to_int to_uint
  rw [if_neg (by rw [ht]; decide)]
  refine Prod.ext ?_ ?_ <;> simp only <;> omega

theorem sensor_movements_exact_witness :
    movements { fujitsu_scroll_init 0 with
                  last_event_position := 4095, event_start_position := 300 }
        (position (mk_packet 20 7 false)) = (7 - 4095, 7 - 300) :=
  sensor_movements_exact
    { fujitsu_scroll_init 0 with last_event_position := 4095, event_start_position := 300 }
    (mk_packet 20 7 false) (by decide) (by decide) (by decide)

/-- C5: for every packet the position decoded by
`fujitsu_scroll_process_packet` with `+` equals
`((packet[1] & 0x0F) << 8) | packet[2]` and lies in `0..4095`. -/
theorem position_eq_or (pkt : packet) :
    position pkt = (((pkt.b1.val &&& 0x0F) <<< 8) ||| pkt.b2.val) ∧
    0 ≤ position pkt ∧ position pkt ≤ 4095 := by
  refine ⟨?_, Nat.zero_le _, position_le pkt⟩
  unfold position
  have h2 : pkt.b2.val < 2 ^ 8 := pkt.b2.isLt
  rw [Nat.shiftLeft_eq, Nat.mul_comm]
  exact Nat.mul_add_lt_is_or h2 _

/-- C6: two packets that agree on the low 6 bits of byte 0, the low 4 bits of
byte 1, all of byte 2 and bit 4 of byte 4 give the same resulting session data
and the same reported events from `fujitsu_scroll_process_packet`, for every
session state and configuration. -/
theorem process_packet_reads_only_fields (cfg : module_params)
    (priv : fujitsu_scroll_data) (p q : packet)
    (h0 : p.b0.val &&& 0x3f = q.b0.val &&& 0x3f)
    (h1 : p.b1.val &&& 0x0f = q.b1.val &&& 0x0f)
    (h2 : p.b2 = q.b2)
    (h4 : p.b4.val &&& 0x10 = q.b4.val &&& 0x10) :
    fujitsu_scroll_process_packet cfg priv p = fujitsu_scroll_process_packet cfg priv q := by
  apply process_packet_congr
  · unfold position
    rw [h1, h2]
  · exact h0
  · exact h4

theorem process_packet_reads_only_fields_witness :
    fujitsu_scroll_process_packet default_params (fujitsu_scroll_init 4)
        ⟨0x14, 0x01, 0x2c, 0x00, 0x10, 0x00⟩ =
      fujitsu_scroll_process_packet default_params (fujitsu_scroll_init 4)
        ⟨0xd4, 0xf1, 0x2c, 0xff, 0xff, 0xff⟩ :=
  process_packet_reads_only_fields default_params (fujitsu_scroll_init 4)
    ⟨0x14, 0x01, 0x2c, 0x00, 0x10, 0x00⟩ ⟨0xd4, 0xf1, 0x2c, 0xff, 0xff, 0xff⟩
    (by decide) (by decide) (by decide) (by decide)

/-- One packet preserves "an idle session has `changed_enough` clear". -/
theorem process_packet_preserves_idle_clear (cfg : module_params)
    (priv priv1 : fujitsu_scroll_data) (pkt : packet) (out : List input_event)
    (h : fujitsu_scroll_process_packet cfg priv pkt = some (priv1, out))
    (hinv : priv.finger_down = false → priv.changed_enough = false) :
    priv1.finger_down = false → priv1.changed_enough = false := by
  cases ht : touching cfg pkt <;> cases hf : priv.finger_down
  · rw [process_packet_idle cfg priv pkt ht hf] at h
    simp only [Option.some.injEq, Prod.mk.injEq] at h
    obtain ⟨rfl, _⟩ := h
    exact fun _ => hinv hf
  · rw [process_packet_end cfg priv pkt ht hf] at h
    simp only [Option.some.injEq, Prod.mk.injEq] at h
    obtain ⟨rfl, _⟩ := h
    exact fun _ => rfl
  · rw [process_packet_start cfg priv pkt ht hf] at h
    simp only [Option.some.injEq, Prod.mk.injEq] at h
    obtain ⟨rfl, _⟩ := h
    exact fun hfd => absurd hfd (by simp)
  · intro hfd
    exfalso
    cases hc : changed_enough_after_check cfg priv pkt
    · rw [process_packet_track_quiet cfg priv pkt ht hf hc] at h
      simp only [Option.some.injEq, Prod.mk.injEq] at h
      obtain ⟨rfl, _⟩ := h
      simp [tracked, hf] at hfd
    · rw [process_packet_track_div cfg priv pkt ht hf hc] at h
      cases hq : int_div (to_int (-(movements priv (position pkt)).1))
          cfg.fujitsu_movement_divisor with
      | none => simp [hq] at h
      | some dm =>
        rw [hq] at h
        simp only at h
        split at h <;>
          · simp only [Option.some.injEq, Prod.mk.injEq] at h
            obtain ⟨rfl, _⟩ := h
            simp [tracked, hf] at hfd

theorem process_packets_preserves_idle_clear (cfg : module_params) (pkts : List packet)
    (priv priv1 : fujitsu_scroll_data) (out : List input_event)
    (h : process_packets cfg priv pkts = some (priv1, out))
    (hinv : priv.finger_down = false → priv.changed_enough = false) :
    priv1.finger_down = false → priv1.changed_enough = false := by
  induction pkts generalizing priv out with
  | nil =>
    simp only [process_packets, Option.some.injEq, Prod.mk.injEq] at h
    obtain ⟨rfl, _⟩ := h
    exact hinv
  | cons p rest ih =>
    simp only [process_packets] at h
    cases hp : fujitsu_scroll_process_packet cfg priv p with
    | none => simp [hp] at h
    | some r =>
      obtain ⟨s, o⟩ := r
      rw [hp] at h
      simp only at h
      cases hr : process_packets cfg s rest with
      | none => simp [hr] at h
      | some r2 =>
        obtain ⟨s3, o3⟩ := r2
        rw [hr] at h
        simp only [Option.some.injEq, Prod.mk.injEq] at h
        obtain ⟨rfl, _⟩ := h
        exact ih s o3 hr (process_packet_preserves_idle_clear cfg priv s p o hp hinv)

/-! ## Claims about the touch state machine -/

/-- C7: for every session state, positive configuration and packet,
`fujitsu_scroll_process_packet` reports a relative-motion event if and only if
the finger was already down, the capacitance reaches the threshold,
`changed_enough` holds after the hysteresis check, `ignore_event` is clear
after the guard and palm checks and `device_movement` is non-zero; the event is
then `(axis, device_movement)` and `last_event_position` becomes the sample
position; in every other case only the synchronisation marker is reported. -/
theorem process_packet_motion_iff (cfg : module_params) (priv : fujitsu_scroll_data)
    (pkt : packet)
    (hcap0 : 0 < cfg.fujitsu_capacitance) (hcap1 : cfg.fujitsu_capacitance ≤ 32767)
    (hdiv : 0 < cfg.fujitsu_movement_divisor) :
    ∃ priv1 out, fujitsu_scroll_process_packet cfg priv pkt = some (priv1, out) ∧
      ((∃ e ∈ out, input_event.is_rel e = true) ↔ motion_condition cfg priv pkt = true) ∧
      (motion_condition cfg priv pkt = true →
        out = [input_event.rel priv.axis (device_movement cfg priv pkt), input_event.sync] ∧
        priv1.last_event_position = position pkt) ∧
      (motion_condition cfg priv pkt = false → out = [input_event.sync]) := by
  have hti := touching_iff cfg pkt hcap0 hcap1
  have hq : int_div (to_int (-(movements priv (position pkt)).1))
      cfg.fujitsu_movement_divisor = some (device_movement cfg priv pkt) :=
    int_div_pos _ _ hdiv
  cases ht : touching cfg pkt
  · have hmc : motion_condition cfg priv pkt = false := by
      rw [ht] at hti
      unfold motion_condition
      simp only [decide_eq_false (fun h => absurd (hti.2 h) (by decide)), Bool.and_false,
        Bool.false_and]
    cases hf : priv.finger_down
    · refine ⟨_, _, process_packet_idle cfg priv pkt ht hf, ?_, ?_, ?_⟩ <;>
        simp [hmc, input_event.is_rel]
    · refine ⟨_, _, process_packet_end cfg priv pkt ht hf, ?_, ?_, ?_⟩ <;>
        simp [hmc, input_event.is_rel]
  · have hge := hti.1 ht
    cases hf : priv.finger_down
    · have hmc : motion_condition cfg priv pkt = false := by
        unfold motion_condition
        simp only [hf, Bool.false_and]
      refine ⟨_, _, process_packet_start cfg priv pkt ht hf, ?_, ?_, ?_⟩ <;>
        simp [hmc, input_event.is_rel]
    · cases hc : changed_enough_after_check cfg priv pkt
      · have hmc : motion_condition cfg priv pkt = false := by
          unfold motion_condition
          simp only [hc, Bool.and_false, Bool.false_and]
        refine ⟨_, _, process_packet_track_quiet cfg priv pkt ht hf hc, ?_, ?_, ?_⟩ <;>
          simp [hmc, input_event.is_rel]
      · rw [process_packet_track_div cfg priv pkt ht hf hc, hq]
        by_cases hcond : device_movement cfg priv pkt ≠ 0 ∧
            ignore_event_after_checks priv pkt = false
        · have hmc : motion_condition cfg priv pkt = true := by
            unfold motion_condition
            simp [hf, hge, hc, hcond.1, hcond.2]
          refine ⟨_, _, if_pos hcond, ?_, ?_, ?_⟩ <;> simp [hmc, input_event.is_rel]
        · have hmc : motion_condition cfg priv pkt = false := by
            unfold motion_condition
            rw [not_and_or] at hcond
            rcases hcond with h | h
            · simp [not_not.1 h]
            · simp [Bool.not_eq_false _ ▸ h]
          refine ⟨_, _, if_neg hcond, ?_, ?_, ?_⟩ <;> simp [hmc, input_event.is_rel]

theorem process_packet_motion_iff_witness :
    ∃ priv1 out,
      fujitsu_scroll_process_packet default_params
          { fujitsu_scroll_init 0 with finger_down := true } (mk_packet 20 300 false) =
        some (priv1, out) ∧
      ((∃ e ∈ out, input_event.is_rel e = true) ↔
        motion_condition default_params
          { fujitsu_scroll_init 0 with finger_down := true } (mk_packet 20 300 false) = true) ∧
      (motion_condition default_params
          { fujitsu_scroll_init 0 with finger_down := true } (mk_packet 20 300 false) = true →
        out = [input_event.rel ({ fujitsu_scroll_init 0 with finger_down := true }).axis
                (device_movement default_params
                  { fujitsu_scroll_init 0 with finger_down := true } (mk_packet 20 300 false)),
               input_event.sync] ∧
        priv1.last_event_position = position (mk_packet 20 300 false)) ∧
      (motion_condition default_params
          { fujitsu_scroll_init 0 with finger_down := true } (mk_packet 20 300 false) = false →
        out = [input_event.sync]) :=
  process_packet_motion_iff default_params
    { fujitsu_scroll_init 0 with finger_down := true } (mk_packet 20 300 false)
    (by decide) (by decide) (by decide)

/-- C8, as stated: not every session state reached from the zeroed session has
`ignore_event` clear while `finger_down` is clear.  A touch that starts and
then ends on a packet with the edge-guard bit set leaves `finger_down = false`,
`changed_enough = false` and `ignore_event = true`. -/
theorem idle_ignore_event_counterexample :
    (process_packets default_params (fujitsu_scroll_init 0)
        [mk_packet 20 0 false, mk_packet 5 0 true]).map
      (fun r => (r.1.finger_down, r.1.changed_enough, r.1.ignore_event)) =
    some (false, false, true) := by
  decide

/-- C8, amended: in every session state reached from the zeroed session by
processing a sequence of packets, `finger_down = false` implies
`changed_enough = false`.  `ignore_event` is not cleared when a touch ends: the
packet that ends a touch leaves it at its previous value or-ed with the
edge-guard flag of that packet, a packet that keeps the session idle leaves it
unchanged, and the packet that starts the next touch overwrites it from
`guard_area_touched_prev`. -/
theorem idle_flags_on_reachable (cfg : module_params) (param0 : Nat)
    (pkts : List packet) (priv : fujitsu_scroll_data) (out : List input_event)
    (h : process_packets cfg (fujitsu_scroll_init param0) pkts = some (priv, out)) :
    (priv.finger_down = false → priv.changed_enough = false) ∧
    ∀ pkt : packet,
      (priv.finger_down = true → touching cfg pkt = false →
        ∃ priv1, fujitsu_scroll_process_packet cfg priv pkt =
            some (priv1, [input_event.sync]) ∧
          priv1.finger_down = false ∧ priv1.changed_enough = false ∧
          priv1.ignore_event =
            (priv.ignore_event || decide (guard_area_touched pkt ≠ 0))) ∧
      (priv.finger_down = false → touching cfg pkt = false →
        ∃ priv1, fujitsu_scroll_process_packet cfg priv pkt =
            some (priv1, [input_event.sync]) ∧
          priv1.finger_down = false ∧ priv1.changed_enough = false ∧
          priv1.ignore_event = priv.ignore_event) ∧
      (priv.finger_down = false → touching cfg pkt = true →
        ∃ priv1, fujitsu_scroll_process_packet cfg priv pkt =
            some (priv1, [input_event.sync]) ∧
          priv1.finger_down = true ∧
          priv1.ignore_event = priv.guard_area_touched_prev) := by
  have hinv : priv.finger_down = false → priv.changed_enough = false := by
    refine process_packets_preserves_idle_clear cfg pkts _ priv out h (fun _ => ?_)
    unfold fujitsu_scroll_init
    split <;> rfl
  refine ⟨hinv, fun pkt => ⟨fun hf ht => ?_, fun hf ht => ?_, fun hf ht => ?_⟩⟩
  · exact ⟨_, process_packet_end cfg priv pkt ht hf, rfl, rfl, rfl⟩
  · exact ⟨_, process_packet_idle cfg priv pkt ht hf, hf, hinv hf, rfl⟩
  · exact ⟨_, process_packet_start cfg priv pkt ht hf, rfl, rfl⟩

theorem idle_flags_on_reachable_witness :
    process_packets default_params (fujitsu_scroll_init 0)
        [mk_packet 20 0 false, mk_packet 5 0 true] =
      some ({ fujitsu_scroll_init 0 with
                capacitance_avg := 20, ignore_event := true
                guard_area_touched_prev := true },
            [input_event.sync, input_event.sync]) ∧
    ((({ fujitsu_scroll_init 0 with
          capacitance_avg := 20, ignore_event := true
          guard_area_touched_prev := true } : fujitsu_scroll_data).finger_down = false →
      ({ fujitsu_scroll_init 0 with
          capacitance_avg := 20, ignore_event := true
          guard_area_touched_prev := true } : fujitsu_scroll_data).changed_enough = false) ∧
    ∀ pkt : packet,
      (({ fujitsu_scroll_init 0 with
            capacitance_avg := 20, ignore_event := true
            guard_area_touched_prev := true } : fujitsu_scroll_data).finger_down = true →
        touching default_params pkt = false →
        ∃ priv1, fujitsu_scroll_process_packet default_params
              { fujitsu_scroll_init 0 with
                  capacitance_avg := 20, ignore_event := true
                  guard_area_touched_prev := true } pkt =
            some (priv1, [input_event.sync]) ∧
          priv1.finger_down = false ∧ priv1.changed_enough = false ∧
          priv1.ignore_event =
            (({ fujitsu_scroll_init 0 with
                  capacitance_avg := 20, ignore_event := true
                  guard_area_touched_prev := true } : fujitsu_scroll_data).ignore_event ||
              decide (guard_area_touched pkt ≠ 0))) ∧
      (({ fujitsu_scroll_init 0 with
            capacitance_avg := 20, ignore_event := true
            guard_area_touched_prev := true } : fujitsu_scroll_data).finger_down = false →
        touching default_params pkt = false →
        ∃ priv1, fujitsu_scroll_process_packet default_params
              { fujitsu_scroll_init 0 with
                  capacitance_avg := 20, ignore_event := true
                  guard_area_touched_prev := true } pkt =
            some (priv1, [input_event.sync]) ∧
          priv1.finger_down = false ∧ priv1.changed_enough = false ∧
          priv1.ignore_event =
            ({ fujitsu_scroll_init 0 with
                capacitance_avg := 20, ignore_event := true
                guard_area_touched_prev := true } : fujitsu_scroll_data).ignore_event) ∧
      (({ fujitsu_scroll_init 0 with
            capacitance_avg := 20, ignore_event := true
            guard_area_touched_prev := true } : fujitsu_scroll_data).finger_down = false →
        touching default_params pkt = true →
        ∃ priv1, fujitsu_scroll_process_packet default_params
              { fujitsu_scroll_init 0 with
                  capacitance_avg := 20, ignore_event := true
                  guard_area_touched_prev := true } pkt =
            some (priv1, [input_event.sync]) ∧
          priv1.finger_down = true ∧
          priv1.ignore_event =
            ({ fujitsu_scroll_init 0 with
                capacitance_avg := 20, ignore_event := true
                guard_area_touched_prev := true } :
              fujitsu_scroll_data).guard_area_touched_prev)) :=
  ⟨by decide,
    idle_flags_on_reachable default_params 0 [mk_packet 20 0 false, mk_packet 5 0 true]
      { fujitsu_scroll_init 0 with
          capacitance_avg := 20, ignore_event := true
          guard_area_touched_prev := true }
      [input_event.sync, input_event.sync] (by decide)⟩

/-- C9, as stated: a capacitance above the palm threshold on the packet that
starts the touch does not suppress the touch.  The first packet (capacitance
40) starts the touch and the second (capacitance 20, position 300) reports
motion `-2`. -/
theorem palm_at_touch_start_counterexample :
    (fujitsu_scroll_init 0).finger_down = false ∧
    touching default_params (mk_packet 40 0 false) = true ∧
    touching default_params (mk_packet 20 300 false) = true ∧
    capacitance (mk_packet 40 0 false) > FJS_CAPACITANCE_PALM_IGNORE_THRESHOLD ∧
    fujitsu_scroll_process_packet default_params (fujitsu_scroll_init 0)
        (mk_packet 40 0 false) =
      some ({ fujitsu_scroll_init 0 with finger_down := true, capacitance_avg := 40 },
            [input_event.sync]) ∧
    fujitsu_scroll_process_packet default_params
        { fujitsu_scroll_init 0 with finger_down := true, capacitance_avg := 40 }
        (mk_packet 20 300 false) =
      some ({ fujitsu_scroll_init 0 with
                finger_down := true
                capacitance_avg := 40
                changed_enough := true
                last_event_position := 300 },
            [input_event.rel 6 (-2), input_event.sync]) := by
  decide

/-- C9, amended: within one touch (consecutive packets whose capacitance
reaches the threshold, begun from an idle session, divisor non-zero), once a
packet after the touch-starting packet has capacitance above the palm
threshold 36, that packet and every later packet of the touch report no motion
event and `ignore_event` stays set, whatever the later capacitances are. -/
theorem palm_suppression_permanent (cfg : module_params) (priv : fujitsu_scroll_data)
    (first palm : packet) (before later : List packet)
    (hd : cfg.fujitsu_movement_divisor ≠ 0)
    (hidle : priv.finger_down = false)
    (hall : ∀ q ∈ first :: (before ++ palm :: later), touching cfg q = true)
    (hpalm : capacitance palm > FJS_CAPACITANCE_PALM_IGNORE_THRESHOLD) :
    ∃ priv1 out1 priv2 out2,
      process_packets cfg priv (first :: before) = some (priv1, out1) ∧
      process_packets cfg priv1 (palm :: later) = some (priv2, out2) ∧
      process_packets cfg priv (first :: (before ++ palm :: later)) =
        some (priv2, out1 ++ out2) ∧
      motion_events out2 = [] ∧ priv2.ignore_event = true := by
  have hfirst := hall first (List.mem_cons_self _ _)
  have hbefore : ∀ q ∈ before, touching cfg q = true := fun q hq =>
    hall q (List.mem_cons_of_mem _ (List.mem_append_left _ hq))
  have hpt : touching cfg palm = true :=
    hall palm (List.mem_cons_of_mem _ (List.mem_append_right _ (List.mem_cons_self _ _)))
  have hlater : ∀ q ∈ later, touching cfg q = true := fun q hq =>
    hall q (List.mem_cons_of_mem _ (List.mem_append_right _ (List.mem_cons_of_mem _ hq)))
  have h0 := process_packet_start cfg priv first hfirst hidle
  obtain ⟨s1, o1, h1, hf1, hl1⟩ :=
    process_packets_touch_total cfg before hd _ hbefore
      (show ({ priv with
                finger_down := true
                last_event_position := position first
                event_start_position := position first
                ignore_event := priv.guard_area_touched_prev
                capacitance_avg := capacitance first
                guard_area_touched_prev := decide (guard_area_touched first ≠ 0) } :
              fujitsu_scroll_data).finger_down = true from rfl)
      (position_le first)
  obtain ⟨s2, o2, h2, hf2, hl2, hi2, ho2⟩ :=
    process_packet_track_total cfg s1 palm hd hpt hf1 hl1
  have hs := ignore_event_after_checks_palm s1 palm hpalm
  obtain ⟨s3, o3, h3, _, hi3, ho3⟩ :=
    process_packets_suppressed cfg later hd s2 hlater hf2 hl2 (hi2.trans hs)
  have hA : process_packets cfg priv (first :: before) =
      some (s1, [input_event.sync] ++ o1) := by
    simp only [process_packets, h0, h1]
  have hB : process_packets cfg s1 (palm :: later) = some (s3, o2 ++ o3) := by
    simp only [process_packets, h2, h3]
  refine ⟨s1, [input_event.sync] ++ o1, s3, o2 ++ o3, hA, hB, ?_, ?_, hi3⟩
  · have := process_packets_append cfg (first :: before) (palm :: later) priv s1 s3 _ _ hA hB
    simpa using this
  · rw [motion_events_append, ho2 hs, motion_events_sync, ho3, List.append_nil]

theorem palm_suppression_permanent_witness :
    ∃ priv1 out1 priv2 out2,
      process_packets default_params (fujitsu_scroll_init 4)
          (mk_packet 20 0 false :: [mk_packet 20 300 false]) = some (priv1, out1) ∧
      process_packets default_params priv1
          (mk_packet 40 600 false :: [mk_packet 20 900 false]) = some (priv2, out2) ∧
      process_packets default_params (fujitsu_scroll_init 4)
          (mk_packet 20 0 false ::
            ([mk_packet 20 300 false] ++ mk_packet 40 600 false :: [mk_packet 20 900 false])) =
        some (priv2, out1 ++ out2) ∧
      motion_events out2 = [] ∧ priv2.ignore_event = true :=
  palm_suppression_permanent default_params (fujitsu_scroll_init 4)
    (mk_packet 20 0 false) (mk_packet 40 600 false)
    [mk_packet 20 300 false] [mk_packet 20 900 false]
    (by decide) (by decide) (by decide) (by decide)

/-- C10: when a packet whose capacitance reaches the threshold arrives in an
idle session with `guard_area_touched_prev` set (divisor non-zero), then after
that packet and after every following packet of the same touch `ignore_event`
is set, whatever the edge-guard bits of those packets, and no motion event is
reported during the touch. -/
theorem touch_start_suppression (cfg : module_params) (priv : fujitsu_scroll_data)
    (first : packet) (rest : List packet)
    (hd : cfg.fujitsu_movement_divisor ≠ 0)
    (hidle : priv.finger_down = false)
    (hguard : priv.guard_area_touched_prev = true)
    (hall : ∀ q ∈ first :: rest, touching cfg q = true) :
    ∃ priv1 out, process_packets cfg priv (first :: rest) = some (priv1, out) ∧
      priv1.finger_down = true ∧ priv1.ignore_event = true ∧ motion_events out = [] := by
  have h0 := process_packet_start cfg priv first (hall first (List.mem_cons_self _ _)) hidle
  obtain ⟨s1, o1, h1, hf1, hi1, ho1⟩ :=
    process_packets_suppressed cfg rest hd _
      (fun q hq => hall q (List.mem_cons_of_mem _ hq))
      (show ({ priv with
                finger_down := true
                last_event_position := position first
                event_start_position := position first
                ignore_event := priv.guard_area_touched_prev
                capacitance_avg := capacitance first
                guard_area_touched_prev := decide (guard_area_touched first ≠ 0) } :
              fujitsu_scroll_data).finger_down = true from rfl)
      (position_le first) hguard
  refine ⟨s1, [input_event.sync] ++ o1, ?_, hf1, hi1, ?_⟩
  · simp only [process_packets, h0, h1]
  · rw [motion_events_append, motion_events_sync, ho1, List.append_nil]

theorem touch_start_suppression_witness :
    ∃ priv1 out,
      process_packets default_params
          { fujitsu_scroll_init 4 with guard_area_touched_prev := true }
          (mk_packet 20 0 false :: [mk_packet 20 300 false, mk_packet 20 600 false]) =
        some (priv1, out) ∧
      priv1.finger_down = true ∧ priv1.ignore_event = true ∧ motion_events out = [] :=
  touch_start_suppression default_params
    { fujitsu_scroll_init 4 with guard_area_touched_prev := true }
    (mk_packet 20 0 false) [mk_packet 20 300 false, mk_packet 20 600 false]
    (by decide) (by decide) (by decide) (by decide)

/-! ## Further lemmas about the processing step -/

/-- With a positive divisor every packet is processed without a trap. -/
theorem process_packet_total_pos (cfg : module_params) (priv : fujitsu_scroll_data)
    (pkt : packet) (hdiv : 0 < cfg.fujitsu_movement_divisor) :
    ∃ priv1 out, fujitsu_scroll_process_packet cfg priv pkt = some (priv1, out) := by
  cases ht : touching cfg pkt <;> cases hf : priv.finger_down
  · exact ⟨_, _, process_packet_idle cfg priv pkt ht hf⟩
  · exact ⟨_, _, process_packet_end cfg priv pkt ht hf⟩
  · exact ⟨_, _, process_packet_start cfg priv pkt ht hf⟩
  · cases hc : changed_enough_after_check cfg priv pkt
    · exact ⟨_, _, process_packet_track_quiet cfg priv pkt ht hf hc⟩
    · rw [process_packet_track_div cfg priv pkt ht hf hc, int_div_pos _ _ hdiv]
      simp only
      split <;> exact ⟨_, _, rfl⟩

/-- Whatever branch is taken, the stored guard flag is the one of the packet. -/
theorem process_packet_guard_prev (cfg : module_params)
    (priv priv1 : fujitsu_scroll_data) (pkt : packet) (out : List input_event)
    (h : fujitsu_scroll_process_packet cfg priv pkt = some (priv1, out)) :
    priv1.guard_area_touched_prev = decide (guard_area_touched pkt ≠ 0) := by
  unfold fujitsu_scroll_process_packet at h
  simp only at h
  split at h
  · cases h
  · simp only [Option.some.injEq, Prod.mk.injEq] at h
    obtain ⟨rfl, _⟩ := h
    rfl

theorem changed_enough_after_check_of_set (cfg : module_params)
    (priv : fujitsu_scroll_data) (pkt : packet) (hce : priv.changed_enough = true) :
    changed_enough_after_check cfg priv pkt = true := by
  unfold changed_enough_after_check
  rw [hce]
  rfl

/-! ## Claims about the latch, the scenario and the division -/

/-- C11: for every state with `finger_down` and `changed_enough` both set and
every packet whose capacitance reaches the threshold, `changed_enough` is still
set after `fujitsu_scroll_process_packet`, whatever the sample position;
`changed_enough` goes from set to clear only on a packet with capacitance below
the threshold that ends a touch, and that transition always leaves it clear. -/
theorem changed_enough_latch (cfg : module_params) (priv : fujitsu_scroll_data)
    (pkt : packet)
    (hcap0 : 0 < cfg.fujitsu_capacitance) (hcap1 : cfg.fujitsu_capacitance ≤ 32767)
    (hdiv : 0 < cfg.fujitsu_movement_divisor) :
    ∃ priv1 out, fujitsu_scroll_process_packet cfg priv pkt = some (priv1, out) ∧
      (priv.finger_down = true → priv.changed_enough = true →
        (capacitance pkt : Int) ≥ cfg.fujitsu_capacitance →
        priv1.finger_down = true ∧ priv1.changed_enough = true) ∧
      (priv.changed_enough = true → priv1.changed_enough = false →
        priv.finger_down = true ∧ (capacitance pkt : Int) < cfg.fujitsu_capacitance) ∧
      (priv.finger_down = true → (capacitance pkt : Int) < cfg.fujitsu_capacitance →
        priv1.finger_down = false ∧ priv1.changed_enough = false) := by
  have hti := touching_iff cfg pkt hcap0 hcap1
  cases ht : touching cfg pkt
  · have hlt : (capacitance pkt : Int) < cfg.fujitsu_capacitance := by
      rw [ht] at hti
      have hn : ¬ (capacitance pkt : Int) ≥ cfg.fujitsu_capacitance :=
        fun h => Bool.false_ne_true (hti.2 h)
      omega
    cases hf : priv.finger_down
    · refine ⟨_, _, process_packet_idle cfg priv pkt ht hf, ?_, ?_, ?_⟩
      · intro h; cases h
      · intro h1 h2
        simp only [h1] at h2
        cases h2
      · intro h; cases h
    · refine ⟨_, _, process_packet_end cfg priv pkt ht hf, ?_, ?_, ?_⟩
      · intro _ _ hge
        omega
      · exact fun _ _ => ⟨rfl, hlt⟩
      · exact fun _ _ => ⟨rfl, rfl⟩
  · have hge := hti.1 ht
    cases hf : priv.finger_down
    · refine ⟨_, _, process_packet_start cfg priv pkt ht hf, ?_, ?_, ?_⟩
      · intro h; cases h
      · intro h1 h2
        simp only [h1] at h2
        cases h2
      · intro h; cases h
    · cases hc : changed_enough_after_check cfg priv pkt
      · refine ⟨_, _, process_packet_track_quiet cfg priv pkt ht hf hc, ?_, ?_, ?_⟩
        · intro _ hce _
          rw [changed_enough_after_check_of_set cfg priv pkt hce] at hc
          cases hc
        · intro hce _
          rw [changed_enough_after_check_of_set cfg priv pkt hce] at hc
          cases hc
        · intro _ hlt
          omega
      · rw [process_packet_track_div cfg priv pkt ht hf hc, int_div_pos _ _ hdiv]
        simp only
        split
        · refine ⟨_, _, rfl, ?_, ?_, ?_⟩
          · exact fun _ _ _ => ⟨hf, hc⟩
          · intro _ h2
            simp only [tracked, hc] at h2
            cases h2
          · intro _ hlt
            omega
        · refine ⟨_, _, rfl, ?_, ?_, ?_⟩
          · exact fun _ _ _ => ⟨hf, hc⟩
          · intro _ h2
            simp only [tracked, hc] at h2
            cases h2
          · intro _ hlt
            omega

theorem changed_enough_latch_witness :
    ∃ priv1 out,
      fujitsu_scroll_process_packet default_params
          { fujitsu_scroll_init 4 with
              finger_down := true, changed_enough := true, event_start_position := 300 }
          (mk_packet 20 300 false) = some (priv1, out) ∧
      (({ fujitsu_scroll_init 4 with
              finger_down := true, changed_enough := true, event_start_position := 300 } :
            fujitsu_scroll_data).finger_down = true →
        ({ fujitsu_scroll_init 4 with
              finger_down := true, changed_enough := true, event_start_position := 300 } :
            fujitsu_scroll_data).changed_enough = true →
        (capacitance (mk_packet 20 300 false) : Int) ≥ default_params.fujitsu_capacitance →
        priv1.finger_down = true ∧ priv1.changed_enough = true) ∧
      (({ fujitsu_scroll_init 4 with
              finger_down := true, changed_enough := true, event_start_position := 300 } :
            fujitsu_scroll_data).changed_enough = true →
        priv1.changed_enough = false →
        ({ fujitsu_scroll_init 4 with
              finger_down := true, changed_enough := true, event_start_position := 300 } :
            fujitsu_scroll_data).finger_down = true ∧
        (capacitance (mk_packet 20 300 false) : Int) < default_params.fujitsu_capacitance) ∧
      (({ fujitsu_scroll_init 4 with
              finger_down := true, changed_enough := true, event_start_position := 300 } :
            fujitsu_scroll_data).finger_down = true →
        (capacitance (mk_packet 20 300 false) : Int) < default_params.fujitsu_capacitance →
        priv1.finger_down = false ∧ priv1.changed_enough = false) :=
  changed_enough_latch default_params
    { fujitsu_scroll_init 4 with
        finger_down := true, changed_enough := true, event_start_position := 300 }
    (mk_packet 20 300 false) (by decide) (by decide) (by decide)

/-- C13: from the zeroed sensor session with the default thresholds, the five
packets with capacitances `[5, 20, 20, 20, 5]`, positions
`[0, 0, 300, 400, 400]` and the edge-guard bit clear report exactly one motion
event, on the third packet, with delta `-(300 / 128) = -2`; the other four
packets report only the synchronisation marker. -/
theorem end_to_end_scenario :
    fujitsu_scroll_process_packet default_params (fujitsu_scroll_init 0)
        (mk_packet 5 0 false) =
      some (fujitsu_scroll_init 0, [input_event.sync]) ∧
    fujitsu_scroll_process_packet default_params (fujitsu_scroll_init 0)
        (mk_packet 20 0 false) =
      some ({ fujitsu_scroll_init 0 with finger_down := true, capacitance_avg := 20 },
            [input_event.sync]) ∧
    fujitsu_scroll_process_packet default_params
        { fujitsu_scroll_init 0 with finger_down := true, capacitance_avg := 20 }
        (mk_packet 20 300 false) =
      some ({ fujitsu_scroll_init 0 with
                finger_down := true, capacitance_avg := 20
                changed_enough := true, last_event_position := 300 },
            [input_event.rel FJS_SENSOR_AXIS (-2), input_event.sync]) ∧
    fujitsu_scroll_process_packet default_params
        { fujitsu_scroll_init 0 with
            finger_down := true, capacitance_avg := 20
            changed_enough := true, last_event_position := 300 }
        (mk_packet 20 400 false) =
      some ({ fujitsu_scroll_init 0 with
                finger_down := true, capacitance_avg := 20
                changed_enough := true, last_event_position := 300 },
            [input_event.sync]) ∧
    fujitsu_scroll_process_packet default_params
        { fujitsu_scroll_init 0 with
            finger_down := true, capacitance_avg := 20
            changed_enough := true, last_event_position := 300 }
        (mk_packet 5 400 false) =
      some ({ fujitsu_scroll_init 0 with capacitance_avg := 20, last_event_position := 300 },
            [input_event.sync]) ∧
    motion_events
        [input_event.sync, input_event.sync, input_event.rel FJS_SENSOR_AXIS (-2),
         input_event.sync, input_event.sync, input_event.sync] =
      [input_event.rel FJS_SENSOR_AXIS (-2)] ∧
    (fujitsu_scroll_init 0).type = fujitsu_scroll_device_type.FUJITSU_SCROLL_SENSOR ∧
    spec_device_movement 300 default_params.fujitsu_movement_divisor = -2 ∧
    (List.map capacitance
        [mk_packet 5 0 false, mk_packet 20 0 false, mk_packet 20 300 false,
         mk_packet 20 400 false, mk_packet 5 400 false] = [5, 20, 20, 20, 5]) ∧
    (List.map position
        [mk_packet 5 0 false, mk_packet 20 0 false, mk_packet 20 300 false,
         mk_packet 20 400 false, mk_packet 5 400 false] = [0, 0, 300, 400, 400]) := by
  decide

/-- C14: for every movement value computed from positions in `[0, 4095]` and
every non-zero divisor, the expression `- movement / fujitsu_movement_divisor`
of the code, which negates first, does not trap and equals the specified
`-(movement / movement_divisor)` under truncating division. -/
theorem device_movement_refines_spec (priv : fujitsu_scroll_data) (pkt : packet)
    (divisor : Int)
    (hl : priv.last_event_position ≤ 4095) (hd : divisor ≠ 0) :
    int_div (to_int (-(movements priv (position pkt)).1)) divisor =
      some (spec_device_movement (movements priv (position pkt)).1 divisor) := by
  have hm := movement_bounds priv pkt hl
  rw [to_int_of_small _ (by omega) (by omega)]
  rw [int_div_of_ne _ _ hd (by unfold INT_MIN; omega)]
  unfold spec_device_movement
  rw [Int.neg_tdiv]

theorem device_movement_refines_spec_witness :
    int_div (to_int (-(movements
        { fujitsu_scroll_init 0 with finger_down := true, last_event_position := 300 }
        (position (mk_packet 20 0 false))).1)) (-128) =
      some (spec_device_movement (movements
        { fujitsu_scroll_init 0 with finger_down := true, last_event_position := 300 }
        (position (mk_packet 20 0 false))).1 (-128)) :=
  device_movement_refines_spec
    { fujitsu_scroll_init 0 with finger_down := true, last_event_position := 300 }
    (mk_packet 20 0 false) (-128) (by decide) (by decide)

/-- C16: after `fujitsu_scroll_process_packet` the field
`guard_area_touched_prev` equals the edge-guard flag `(packet[4] & 0x10) != 0`
of the packet, in every case: touch start, tracking, touch end and idle.  The
function returns for every state and packet when the divisor is positive, and
whenever it returns the field holds the flag. -/
theorem guard_prev_is_packet_flag (cfg : module_params) (priv : fujitsu_scroll_data)
    (pkt : packet) :
    (∀ priv1 out, fujitsu_scroll_process_packet cfg priv pkt = some (priv1, out) →
      priv1.guard_area_touched_prev = decide (pkt.b4.val &&& 0x10 ≠ 0)) ∧
    (0 < cfg.fujitsu_movement_divisor →
      ∃ priv1 out, fujitsu_scroll_process_packet cfg priv pkt = some (priv1, out) ∧
        priv1.guard_area_touched_prev = decide (pkt.b4.val &&& 0x10 ≠ 0)) := by
  refine ⟨fun priv1 out h => process_packet_guard_prev cfg priv priv1 pkt out h, fun hdiv => ?_⟩
  obtain ⟨priv1, out, h⟩ := process_packet_total_pos cfg priv pkt hdiv
  exact ⟨priv1, out, h, process_packet_guard_prev cfg priv priv1 pkt out h⟩

theorem guard_prev_is_packet_flag_witness :
    ∃ priv1 out,
      fujitsu_scroll_process_packet default_params
          { fujitsu_scroll_init 4 with finger_down := true, changed_enough := true }
          (mk_packet 20 300 true) = some (priv1, out) ∧
      priv1.guard_area_touched_prev = decide ((mk_packet 20 300 true).b4.val &&& 0x10 ≠ 0) :=
  (guard_prev_is_packet_flag default_params
    { fujitsu_scroll_init 4 with finger_down := true, changed_enough := true }
    (mk_packet 20 300 true)).2 (by decide)

/-- C17: for every state with `finger_down` clear and every packet whose
capacitance reaches a positive threshold, after
`fujitsu_scroll_process_packet` `finger_down` is set, `last_event_position`
and `event_start_position` both equal the sample position, `ignore_event`
equals the `guard_area_touched_prev` of before the packet, and no motion event
is reported. -/
theorem touch_start_transition (cfg : module_params) (priv : fujitsu_scroll_data)
    (pkt : packet)
    (hcap0 : 0 < cfg.fujitsu_capacitance) (hcap1 : cfg.fujitsu_capacitance ≤ 32767)
    (hidle : priv.finger_down = false)
    (hge : (capacitance pkt : Int) ≥ cfg.fujitsu_capacitance) :
    ∃ priv1 out, fujitsu_scroll_process_packet cfg priv pkt = some (priv1, out) ∧
      priv1.finger_down = true ∧
      priv1.last_event_position = position pkt ∧
      priv1.event_start_position = position pkt ∧
      priv1.ignore_event = priv.guard_area_touched_prev ∧
      out = [input_event.sync] ∧ motion_events out = [] :=
  ⟨_, _, process_packet_start cfg priv pkt ((touching_iff cfg pkt hcap0 hcap1).2 hge) hidle,
    rfl, rfl, rfl, rfl, rfl, rfl⟩

theorem touch_start_transition_witness :
    ∃ priv1 out,
      fujitsu_scroll_process_packet default_params
          { fujitsu_scroll_init 4 with guard_area_touched_prev := true, ignore_event := false }
          (mk_packet 20 300 false) = some (priv1, out) ∧
      priv1.finger_down = true ∧
      priv1.last_event_position = position (mk_packet 20 300 false) ∧
      priv1.event_start_position = position (mk_packet 20 300 false) ∧
      priv1.ignore_event =
        ({ fujitsu_scroll_init 4 with guard_area_touched_prev := true, ignore_event := false } :
          fujitsu_scroll_data).guard_area_touched_prev ∧
      out = [input_event.sync] ∧ motion_events out = [] :=
  touch_start_transition default_params
    { fujitsu_scroll_init 4 with guard_area_touched_prev := true, ignore_event := false }
    (mk_packet 20 300 false) (by decide) (by decide) (by decide) (by decide)

/-- C18: for positions in `[0, 4095]` whose raw difference
`d = new_pos - prev_pos` is exactly 2048, `shortest_circle_movement` takes the
first branch, the one for a difference above `FJS_MAX_POS_CHG` that subtracts
`FJS_RANGE`, and returns `d - 4096`. -/
theorem ring_tie_takes_subtract_branch (new_pos prev_pos : Int)
    (hn0 : 0 ≤ new_pos) (hn1 : new_pos ≤ 4095)
    (hp0 : 0 ≤ prev_pos) (hp1 : prev_pos ≤ 4095)
    (htie : new_pos - prev_pos = 2048) :
    to_int (new_pos - prev_pos) > FJS_MAX_POS_CHG ∧
    shortest_circle_movement new_pos prev_pos = new_pos - prev_pos - FJS_RANGE ∧
    shortest_circle_movement new_pos prev_pos = new_pos - prev_pos - 4096 := by
  rw [shortest_circle_movement_eq new_pos prev_pos hn0 hn1 hp0 hp1,
    to_int_of_small _ (by omega) (by omega), FJS_MAX_POS_CHG_eq, FJS_RANGE_eq, htie]
  decide

theorem ring_tie_takes_subtract_branch_witness :
    to_int (3000 - 952) > FJS_MAX_POS_CHG ∧
    shortest_circle_movement 3000 952 = 3000 - 952 - FJS_RANGE ∧
    shortest_circle_movement 3000 952 = 3000 - 952 - 4096 :=
  ring_tie_takes_subtract_branch 3000 952 (by decide) (by decide) (by decide) (by decide)
    (by decide)

/-! ## Lemmas about results, totality and bounds -/

/-- What a returning call can have done: the type and axis are kept, and either
only the synchronisation marker is reported, or the quotient of the division is
non-zero and is reported, and the sample position is stored. -/
theorem process_packet_result (cfg : module_params) (priv priv1 : fujitsu_scroll_data)
    (pkt : packet) (out : List input_event)
    (h : fujitsu_scroll_process_packet cfg priv pkt = some (priv1, out)) :
    priv1.type = priv.type ∧ priv1.axis = priv.axis ∧
    ((out = [input_event.sync] ∧
        (priv1.last_event_position = priv.last_event_position ∨
          priv1.last_event_position = position pkt)) ∨
      (∃ dm, int_div (to_int (-(movements priv (position pkt)).1))
            cfg.fujitsu_movement_divisor = some dm ∧ dm ≠ 0 ∧
          out = [input_event.rel priv.axis dm, input_event.sync] ∧
          priv1.last_event_position = position pkt)) := by
  cases ht : touching cfg pkt <;> cases hf : priv.finger_down
  · rw [process_packet_idle cfg priv pkt ht hf] at h
    simp only [Option.some.injEq, Prod.mk.injEq] at h
    obtain ⟨rfl, rfl⟩ := h
    exact ⟨rfl, rfl, Or.inl ⟨rfl, Or.inl rfl⟩⟩
  · rw [process_packet_end cfg priv pkt ht hf] at h
    simp only [Option.some.injEq, Prod.mk.injEq] at h
    obtain ⟨rfl, rfl⟩ := h
    exact ⟨rfl, rfl, Or.inl ⟨rfl, Or.inl rfl⟩⟩
  · rw [process_packet_start cfg priv pkt ht hf] at h
    simp only [Option.some.injEq, Prod.mk.injEq] at h
    obtain ⟨rfl, rfl⟩ := h
    exact ⟨rfl, rfl, Or.inl ⟨rfl, Or.inr rfl⟩⟩
  · cases hc : changed_enough_after_check cfg priv pkt
    · rw [process_packet_track_quiet cfg priv pkt ht hf hc] at h
      simp only [Option.some.injEq, Prod.mk.injEq] at h
      obtain ⟨rfl, rfl⟩ := h
      exact ⟨rfl, rfl, Or.inl ⟨rfl, Or.inl rfl⟩⟩
    · rw [process_packet_track_div cfg priv pkt ht hf hc] at h
      cases hq : int_div (to_int (-(movements priv (position pkt)).1))
          cfg.fujitsu_movement_divisor with
      | none => simp [hq] at h
      | some dm =>
        rw [hq] at h
        simp only at h
        split at h
        · rename_i hcond
          simp only [Option.some.injEq, Prod.mk.injEq] at h
          obtain ⟨rfl, rfl⟩ := h
          exact ⟨rfl, rfl, Or.inr ⟨dm, rfl, hcond.1, rfl, rfl⟩⟩
        · simp only [Option.some.injEq, Prod.mk.injEq] at h
          obtain ⟨rfl, rfl⟩ := h
          exact ⟨rfl, rfl, Or.inl ⟨rfl, Or.inl rfl⟩⟩

/-- With a non-zero divisor and a stored ring position every packet is
processed without a trap, and the stored position stays a ring position. -/
theorem process_packet_total_of_ne (cfg : module_params) (priv : fujitsu_scroll_data)
    (pkt : packet) (hd : cfg.fujitsu_movement_divisor ≠ 0)
    (hl : priv.last_event_position ≤ 4095) :
    ∃ priv1 out, fujitsu_scroll_process_packet cfg priv pkt = some (priv1, out) ∧
      priv1.last_event_position ≤ 4095 ∧ priv1.type = priv.type := by
  have hex : ∃ priv1 out, fujitsu_scroll_process_packet cfg priv pkt = some (priv1, out) := by
    cases ht : touching cfg pkt <;> cases hf : priv.finger_down
    · exact ⟨_, _, process_packet_idle cfg priv pkt ht hf⟩
    · exact ⟨_, _, process_packet_end cfg priv pkt ht hf⟩
    · exact ⟨_, _, process_packet_start cfg priv pkt ht hf⟩
    · obtain ⟨s, o, h, _⟩ := process_packet_track_total cfg priv pkt hd ht hf hl
      exact ⟨s, o, h⟩
  obtain ⟨priv1, out, h⟩ := hex
  obtain ⟨hty, _, hcase⟩ := process_packet_result cfg priv priv1 pkt out h
  have hp := position_le pkt
  refine ⟨priv1, out, h, ?_, hty⟩
  rcases hcase with ⟨_, h1 | h1⟩ | ⟨_, _, _, _, h1⟩ <;> omega

/-- From a stored ring position, a stream is processed without a trap when the
divisor is non-zero. -/
theorem process_packets_total_of_ne (cfg : module_params) (pkts : List packet)
    (hd : cfg.fujitsu_movement_divisor ≠ 0) (priv : fujitsu_scroll_data)
    (hl : priv.last_event_position ≤ 4095) :
    ∃ priv1 out, process_packets cfg priv pkts = some (priv1, out) ∧
      priv1.last_event_position ≤ 4095 ∧ priv1.type = priv.type := by
  induction pkts generalizing priv with
  | nil => exact ⟨priv, [], rfl, hl, rfl⟩
  | cons p rest ih =>
    obtain ⟨s1, o1, h1, hl1, ht1⟩ := process_packet_total_of_ne cfg priv p hd hl
    obtain ⟨s2, o2, h2, hl2, ht2⟩ := ih s1 hl1
    refine ⟨s2, o1 ++ o2, ?_, hl2, ht2.trans ht1⟩
    simp only [process_packets, h1, h2]

theorem fujitsu_scroll_init_last (param0 : Nat) :
    (fujitsu_scroll_init param0).last_event_position ≤ 4095 := by
  unfold fujitsu_scroll_init
  split <;> exact Nat.zero_le _

theorem tdiv_abs_le_abs (a b : Int) : |Int.tdiv a b| ≤ |a| := by
  rw [Int.abs_eq_natAbs, Int.abs_eq_natAbs, Int.natAbs_tdiv]
  exact Int.ofNat_le.2 (Nat.div_le_self _ _)

/-- The magnitude of the movement by device type. -/
theorem movement_limit_bounds (param0 : Nat) (priv : fujitsu_scroll_data) (pkt : packet)
    (hty : priv.type = (fujitsu_scroll_init param0).type)
    (hl : priv.last_event_position ≤ 4095) :
    |(movements priv (position pkt)).1| ≤ movement_limit param0 := by
  have hp := position_le pkt
  unfold movement_limit
  unfold fujitsu_scroll_init at hty
  rw [abs_le]
  by_cases h4 : param0 = FUJITSU_SCROLL_WHEEL_ID
  · rw [if_pos h4] at hty ⊢
    simp only at hty
    unfold movements
    rw [if_pos hty]
    simp only
    rw [to_int_of_small _ (by omega) (by omega), to_int_of_small _ (by omega) (by omega),
      shortest_circle_movement_eq _ _ (by omega) (by omega) (by omega) (by omega)]
    split_ifs <;> constructor <;> omega
  · rw [if_neg h4] at hty ⊢
    have := movement_bounds priv pkt hl
    constructor <;> omega

theorem tdiv_abs_le_of_pos (a bound d : Int) (hd : 0 < d) (ha : |a| ≤ bound) :
    |Int.tdiv a d| ≤ bound / d := by
  rw [abs_le] at ha
  rcases le_total 0 a with h0 | h0
  · rw [Int.tdiv_eq_ediv h0 (le_of_lt hd), abs_of_nonneg (Int.ediv_nonneg h0 (le_of_lt hd))]
    exact Int.ediv_le_ediv hd ha.2
  · have h1 : (0 : Int) ≤ -a := by omega
    have h2 : Int.tdiv a d = -(Int.tdiv (-a) d) := by
      rw [Int.neg_tdiv, neg_neg]
    rw [h2, abs_neg, Int.tdiv_eq_ediv h1 (le_of_lt hd),
      abs_of_nonneg (Int.ediv_nonneg h1 (le_of_lt hd))]
    exact Int.ediv_le_ediv hd (by omega)

theorem process_packets_cons_some (cfg : module_params) (priv priv1 : fujitsu_scroll_data)
    (pkt : packet) (rest : List packet) (out1 : List input_event)
    (h : fujitsu_scroll_process_packet cfg priv pkt = some (priv1, out1)) :
    process_packets cfg priv (pkt :: rest) =
      (process_packets cfg priv1 rest).map (fun r => (r.1, out1 ++ r.2)) := by
  simp only [process_packets, h]
  cases process_packets cfg priv1 rest with
  | none => rfl
  | some r => rfl

/-- From a stored ring position and with a positive divisor, a stream is
processed without a trap and every reported delta is non-zero and bounded by
the movement limit of the device over the divisor. -/
theorem process_packets_delta_bounds (cfg : module_params) (param0 : Nat)
    (pkts : List packet) (hD : 0 < cfg.fujitsu_movement_divisor)
    (priv : fujitsu_scroll_data)
    (hty : priv.type = (fujitsu_scroll_init param0).type)
    (hl : priv.last_event_position ≤ 4095) :
    ∃ priv1 out, process_packets cfg priv pkts = some (priv1, out) ∧
      ∀ code value, input_event.rel code value ∈ out →
        value ≠ 0 ∧ |value| ≤ movement_limit param0 / cfg.fujitsu_movement_divisor := by
  induction pkts generalizing priv with
  | nil => exact ⟨priv, [], rfl, fun _ _ h => absurd h (List.not_mem_nil _)⟩
  | cons p rest ih =>
    obtain ⟨s1, o1, h1, hl1, ht1⟩ :=
      process_packet_total_of_ne cfg priv p (ne_of_gt hD) hl
    obtain ⟨s2, o2, h2, hb2⟩ := ih s1 (ht1.trans hty) hl1
    refine ⟨s2, o1 ++ o2, ?_, ?_⟩
    · simp only [process_packets, h1, h2]
    · intro code value hmem
      rcases List.mem_append.1 hmem with hm | hm
      · obtain ⟨_, _, hcase⟩ := process_packet_result cfg priv s1 p o1 h1
        rcases hcase with ⟨ho, _⟩ | ⟨dm, hq, hne, ho, _⟩
        · rw [ho] at hm
          simp at hm
        · rw [ho] at hm
          simp only [List.mem_cons, input_event.rel.injEq, List.mem_singleton,
            reduceCtorEq, or_false, List.not_mem_nil] at hm
          obtain ⟨_, rfl⟩ := hm
          have hmb := movement_bounds priv p hl
          have hlim := movement_limit_bounds param0 priv p hty hl
          rw [to_int_of_small _ (by omega) (by omega), int_div_pos _ _ hD,
            Option.some.injEq] at hq
          refine ⟨hne, ?_⟩
          rw [← hq]
          exact tdiv_abs_le_of_pos _ _ _ hD (by rw [abs_neg]; exact hlim)
      · exact hb2 code value hm

theorem movements_fst_congr (a b : fujitsu_scroll_data) (pos : Nat)
    (hty : a.type = b.type) (hl : a.last_event_position = b.last_event_position) :
    (movements a pos).1 = (movements b pos).1 := by
  unfold movements
  rw [hty, hl]
  split <;> rfl

theorem tdiv_eq_zero_of_abs_lt (a d : Int) (h : |a| < d) : Int.tdiv a d = 0 := by
  rw [abs_lt] at h
  rcases le_total 0 a with h0 | h0
  · exact Int.tdiv_eq_zero_of_lt h0 h.2
  · have h2 : Int.tdiv a d = -(Int.tdiv (-a) d) := by
      rw [Int.neg_tdiv, neg_neg]
    rw [h2, Int.tdiv_eq_zero_of_lt (by omega) (by omega)]
    rfl

theorem tdiv_ne_zero_of_le_abs (a d : Int) (hd : 0 < d) (h : d ≤ |a|) :
    Int.tdiv a d ≠ 0 := by
  rcases le_total 0 a with h0 | h0
  · rw [abs_of_nonneg h0] at h
    rw [Int.tdiv_eq_ediv h0 (le_of_lt hd)]
    have : 1 ≤ a / d := Int.le_ediv_of_mul_le hd (by omega)
    omega
  · rw [abs_of_nonpos h0] at h
    have h2 : Int.tdiv a d = -(Int.tdiv (-a) d) := by
      rw [Int.neg_tdiv, neg_neg]
    rw [h2, Int.tdiv_eq_ediv (by omega) (le_of_lt hd)]
    have : 1 ≤ -a / d := Int.le_ediv_of_mul_le hd (by omega)
    omega

/-- A tracking packet of a confirmed touch whose movement is smaller than the
divisor reports nothing and keeps the stored position. -/
theorem process_packet_sub_divisor (cfg : module_params) (priv : fujitsu_scroll_data)
    (pkt : packet) (hD : 0 < cfg.fujitsu_movement_divisor)
    (hf : priv.finger_down = true) (hce : priv.changed_enough = true)
    (hl : priv.last_event_position ≤ 4095)
    (ht : touching cfg pkt = true)
    (hm : |(movements priv (position pkt)).1| < cfg.fujitsu_movement_divisor) :
    fujitsu_scroll_process_packet cfg priv pkt =
      some (tracked cfg priv pkt, [input_event.sync]) := by
  have hc := changed_enough_after_check_of_set cfg priv pkt hce
  have hmb := movement_bounds priv pkt hl
  rw [process_packet_track_div cfg priv pkt ht hf hc, int_div_pos _ _ hD,
    to_int_of_small _ (by omega) (by omega), Int.neg_tdiv,
    tdiv_eq_zero_of_abs_lt _ _ hm]
  simp

/-- A run of such packets reports only synchronisation markers and keeps the
stored position; if no packet of the run raises the guard or palm condition,
`ignore_event` stays clear. -/
theorem process_packets_sub_divisor_run (cfg : module_params) (quiet : List packet)
    (hD : 0 < cfg.fujitsu_movement_divisor) (priv : fujitsu_scroll_data)
    (hf : priv.finger_down = true) (hce : priv.changed_enough = true)
    (hl : priv.last_event_position ≤ 4095)
    (hq : ∀ q ∈ quiet, touching cfg q = true ∧
      |(movements priv (position q)).1| < cfg.fujitsu_movement_divisor) :
    ∃ priv1, process_packets cfg priv quiet =
        some (priv1, List.replicate quiet.length input_event.sync) ∧
      priv1.last_event_position = priv.last_event_position ∧
      priv1.type = priv.type ∧ priv1.axis = priv.axis ∧
      priv1.finger_down = true ∧ priv1.changed_enough = true ∧
      (priv.ignore_event = false →
        (∀ q ∈ quiet, guard_area_touched q = 0 ∧
          capacitance q ≤ FJS_CAPACITANCE_PALM_IGNORE_THRESHOLD) →
        priv1.ignore_event = false) := by
  induction quiet generalizing priv with
  | nil => exact ⟨priv, rfl, rfl, rfl, rfl, hf, hce, fun h _ => h⟩
  | cons p rest ih =>
    obtain ⟨htp, hmp⟩ := hq p (List.mem_cons_self p rest)
    have h1 := process_packet_sub_divisor cfg priv p hD hf hce hl htp hmp
    have hc := changed_enough_after_check_of_set cfg priv p hce
    obtain ⟨s2, h2, hl2, hty2, hax2, hf2, hce2, hi2⟩ :=
      ih (tracked cfg priv p) hf hc hl (fun q hqm => by
        obtain ⟨a, b⟩ := hq q (List.mem_cons_of_mem p hqm)
        refine ⟨a, ?_⟩
        rw [movements_fst_congr (tracked cfg priv p) priv (position q) rfl rfl]
        exact b)
    refine ⟨s2, ?_, hl2, hty2, hax2, hf2, hce2, ?_⟩
    · rw [process_packets_cons_some cfg priv _ p rest _ h1, h2]
      rfl
    · intro hi hg
      apply hi2
      · obtain ⟨g0, c0⟩ := hg p (List.mem_cons_self p rest)
        show ignore_event_after_checks priv p = false
        unfold ignore_event_after_checks
        rw [hi, decide_eq_false (not_not.2 g0), decide_eq_false (Nat.not_lt.2 c0)]
        rfl
      · exact fun q hqm => hg q (List.mem_cons_of_mem p hqm)

/-- Two idle sessions that differ at most in `ignore_event` report the same
events for every stream, and trap on the same streams. -/
theorem process_packets_ignore_event_irrelevant (cfg : module_params) (pkts : List packet)
    (priv : fujitsu_scroll_data) (b : Bool) (hidle : priv.finger_down = false) :
    (process_packets cfg priv pkts).map Prod.snd =
      (process_packets cfg { priv with ignore_event := b } pkts).map Prod.snd := by
  induction pkts generalizing priv with
  | nil => rfl
  | cons p rest ih =>
    cases ht : touching cfg p
    · rw [process_packets_cons_some cfg priv _ p rest _ (process_packet_idle cfg priv p ht hidle),
        process_packets_cons_some cfg { priv with ignore_event := b } _ p rest _
          (process_packet_idle cfg { priv with ignore_event := b } p ht hidle),
        Option.map_map, Option.map_map]
      have h := ih { priv with guard_area_touched_prev := decide (guard_area_touched p ≠ 0) }
        hidle
      have hcomp : (Prod.snd ∘ fun r : fujitsu_scroll_data × List input_event =>
          (r.1, [input_event.sync] ++ r.2)) =
          (fun o => [input_event.sync] ++ o) ∘ Prod.snd := rfl
      rw [hcomp, ← Option.map_map, ← Option.map_map, h]
    · rw [process_packets_cons_some cfg priv _ p rest _ (process_packet_start cfg priv p ht hidle),
        process_packets_cons_some cfg { priv with ignore_event := b } _ p rest _
          (process_packet_start cfg { priv with ignore_event := b } p ht hidle)]

/-! ## Claims about accumulation, totality, bounds and the stale flag -/

/-- C12, as stated: in a confirmed touch with `ignore_event` clear, a packet
whose displacement from `last_event_position` is at least the divisor need not
report an event.  After a touch start at 0 and a reported move to 300, the
packet at 600 (displacement 300, divisor 128) has the edge-guard bit set and
reports only the synchronisation marker; `last_event_position` stays 300. -/
theorem accumulation_guard_counterexample :
    process_packets default_params (fujitsu_scroll_init 0)
        [mk_packet 20 0 false, mk_packet 20 300 false] =
      some ({ fujitsu_scroll_init 0 with
                finger_down := true, capacitance_avg := 20
                changed_enough := true, ignore_event := false
                last_event_position := 300 },
            [input_event.sync, input_event.rel FJS_SENSOR_AXIS (-2), input_event.sync]) ∧
    touching default_params (mk_packet 20 600 true) = true ∧
    (movements
        { fujitsu_scroll_init 0 with
            finger_down := true, capacitance_avg := 20
            changed_enough := true, ignore_event := false
            last_event_position := 300 }
        (position (mk_packet 20 600 true))).1 = 300 ∧
    fujitsu_scroll_process_packet default_params
        { fujitsu_scroll_init 0 with
            finger_down := true, capacitance_avg := 20
            changed_enough := true, ignore_event := false
            last_event_position := 300 }
        (mk_packet 20 600 true) =
      some ({ fujitsu_scroll_init 0 with
                finger_down := true, capacitance_avg := 20
                changed_enough := true, ignore_event := true
                last_event_position := 300
                guard_area_touched_prev := true },
            [input_event.sync]) := by
  decide

/-- C12, amended: in a tracking state with `changed_enough` set, a stored ring
position and a positive divisor `D`, every packet of the touch whose
displacement from `last_event_position` has magnitude smaller than `D` reports
no event and leaves `last_event_position` unchanged; after any run of such
packets, if `ignore_event` was clear and neither a packet of the run nor the
next packet has the edge-guard bit set or a capacitance above 36, the next
packet whose displacement `m` from that same `last_event_position` has
`|m| >= D` reports exactly one event with delta `-(m / D)` and only then
stores the sample position.  A packet of the touch with the edge-guard bit set
or a capacitance above 36 sets `ignore_event`, and neither that packet nor any
later packet of the touch reports an event. -/
theorem sub_divisor_accumulation (cfg : module_params) (priv : fujitsu_scroll_data)
    (quiet : List packet)
    (hD : 0 < cfg.fujitsu_movement_divisor)
    (hf : priv.finger_down = true) (hce : priv.changed_enough = true)
    (hl : priv.last_event_position ≤ 4095)
    (hq : ∀ q ∈ quiet, touching cfg q = true ∧
      |(movements priv (position q)).1| < cfg.fujitsu_movement_divisor) :
    ∃ priv1, process_packets cfg priv quiet =
        some (priv1, List.replicate quiet.length input_event.sync) ∧
      priv1.last_event_position = priv.last_event_position ∧
      (∀ pkt : packet, touching cfg pkt = true →
        cfg.fujitsu_movement_divisor ≤ |(movements priv (position pkt)).1| →
        priv.ignore_event = false →
        (∀ q ∈ quiet, guard_area_touched q = 0 ∧
          capacitance q ≤ FJS_CAPACITANCE_PALM_IGNORE_THRESHOLD) →
        guard_area_touched pkt = 0 →
        capacitance pkt ≤ FJS_CAPACITANCE_PALM_IGNORE_THRESHOLD →
        ∃ priv2, fujitsu_scroll_process_packet cfg priv1 pkt =
            some (priv2,
              [input_event.rel priv.axis
                  (spec_device_movement (movements priv (position pkt)).1
                    cfg.fujitsu_movement_divisor),
               input_event.sync]) ∧
          priv2.last_event_position = position pkt) ∧
      (∀ (pkt : packet) (later : List packet), touching cfg pkt = true →
        (guard_area_touched pkt ≠ 0 ∨
          capacitance pkt > FJS_CAPACITANCE_PALM_IGNORE_THRESHOLD) →
        (∀ q ∈ later, touching cfg q = true) →
        ∃ priv2 out2 priv3 out3,
          fujitsu_scroll_process_packet cfg priv1 pkt = some (priv2, out2) ∧
          priv2.ignore_event = true ∧ out2 = [input_event.sync] ∧
          process_packets cfg priv2 later = some (priv3, out3) ∧
          priv3.ignore_event = true ∧ motion_events out3 = []) := by
  obtain ⟨s1, h1, hl1, hty1, hax1, hf1, hce1, hi1⟩ :=
    process_packets_sub_divisor_run cfg quiet hD priv hf hce hl hq
  refine ⟨s1, h1, hl1, fun pkt ht hm hi hg g0 c0 => ?_, fun pkt later ht hgp hlater => ?_⟩
  · have hi1 := hi1 hi hg
    have hmv := movements_fst_congr s1 priv (position pkt) hty1 hl1
    have hmb := movement_bounds priv pkt hl
    have hc := changed_enough_after_check_of_set cfg s1 pkt hce1
    have hie : ignore_event_after_checks s1 pkt = false := by
      unfold ignore_event_after_checks
      rw [hi1, decide_eq_false (not_not.2 g0), decide_eq_false (Nat.not_lt.2 c0)]
      rfl
    have hne : Int.tdiv (-(movements priv (position pkt)).1)
        cfg.fujitsu_movement_divisor ≠ 0 :=
      tdiv_ne_zero_of_le_abs _ _ hD (by rw [abs_neg]; exact hm)
    rw [process_packet_track_div cfg s1 pkt ht hf1 hc, hmv, int_div_pos _ _ hD,
      to_int_of_small _ (by omega) (by omega)]
    simp only
    rw [if_pos ⟨hne, hie⟩, hax1]
    unfold spec_device_movement
    rw [Int.neg_tdiv]
    exact ⟨_, rfl, rfl⟩
  · have hl1le : s1.last_event_position ≤ 4095 := by omega
    obtain ⟨s2, o2, h2, hf2, hl2, hi2, ho2⟩ :=
      process_packet_track_total cfg s1 pkt (ne_of_gt hD) ht hf1 hl1le
    have hs : ignore_event_after_checks s1 pkt = true := by
      rcases hgp with hg | hp
      · unfold ignore_event_after_checks
        rw [decide_eq_true hg, Bool.or_true, Bool.true_or]
      · exact ignore_event_after_checks_palm s1 pkt hp
    obtain ⟨s3, o3, h3, _, hi3, ho3⟩ :=
      process_packets_suppressed cfg later (ne_of_gt hD) s2 hlater hf2 hl2 (hi2.trans hs)
    exact ⟨s2, o2, s3, o3, h2, hi2.trans hs, ho2 hs, h3, hi3, ho3⟩

theorem sub_divisor_accumulation_witness :
    ∃ priv1, process_packets default_params
          { fujitsu_scroll_init 0 with
              finger_down := true, changed_enough := true, last_event_position := 300 }
          [mk_packet 20 350 false, mk_packet 20 400 false] =
        some (priv1, List.replicate
          [mk_packet 20 350 false, mk_packet 20 400 false].length input_event.sync) ∧
      priv1.last_event_position =
        ({ fujitsu_scroll_init 0 with
            finger_down := true, changed_enough := true, last_event_position := 300 } :
          fujitsu_scroll_data).last_event_position ∧
      (∀ pkt : packet, touching default_params pkt = true →
        default_params.fujitsu_movement_divisor ≤
          |(movements
              { fujitsu_scroll_init 0 with
                  finger_down := true, changed_enough := true
                  last_event_position := 300 } (position pkt)).1| →
        ({ fujitsu_scroll_init 0 with
            finger_down := true, changed_enough := true, last_event_position := 300 } :
          fujitsu_scroll_data).ignore_event = false →
        (∀ q ∈ [mk_packet 20 350 false, mk_packet 20 400 false],
          guard_area_touched q = 0 ∧
          capacitance q ≤ FJS_CAPACITANCE_PALM_IGNORE_THRESHOLD) →
        guard_area_touched pkt = 0 →
        capacitance pkt ≤ FJS_CAPACITANCE_PALM_IGNORE_THRESHOLD →
        ∃ priv2, fujitsu_scroll_process_packet default_params priv1 pkt =
            some (priv2,
              [input_event.rel
                  ({ fujitsu_scroll_init 0 with
                      finger_down := true, changed_enough := true
                      last_event_position := 300 } : fujitsu_scroll_data).axis
                  (spec_device_movement (movements
                      { fujitsu_scroll_init 0 with
                          finger_down := true, changed_enough := true
                          last_event_position := 300 }
                      (position pkt)).1
                    default_params.fujitsu_movement_divisor),
               input_event.sync]) ∧
          priv2.last_event_position = position pkt) ∧
      (∀ (pkt : packet) (later : List packet), touching default_params pkt = true →
        (guard_area_touched pkt ≠ 0 ∨
          capacitance pkt > FJS_CAPACITANCE_PALM_IGNORE_THRESHOLD) →
        (∀ q ∈ later, touching default_params q = true) →
        ∃ priv2 out2 priv3 out3,
          fujitsu_scroll_process_packet default_params priv1 pkt = some (priv2, out2) ∧
          priv2.ignore_event = true ∧ out2 = [input_event.sync] ∧
          process_packets default_params priv2 later = some (priv3, out3) ∧
          priv3.ignore_event = true ∧ motion_events out3 = []) :=
  sub_divisor_accumulation default_params
    { fujitsu_scroll_init 0 with
        finger_down := true, changed_enough := true, last_event_position := 300 }
    [mk_packet 20 350 false, mk_packet 20 400 false]
    (by decide) (by decide) (by decide) (by decide) (by decide)

/-- C15: with a non-zero divisor, `fujitsu_scroll_process_packet` is total on
every state reached from the zeroed session and every packet: the stream that
reaches the state is processed without a trap, and at the reached state, for
every packet, the negation of `movement` stays within the 32-bit signed range,
the division does not trap and its quotient stays within that range, and the
call returns. -/
theorem process_packet_total_on_reachable (cfg : module_params) (param0 : Nat)
    (pkts : List packet) (hd : cfg.fujitsu_movement_divisor ≠ 0) :
    ∃ priv out, process_packets cfg (fujitsu_scroll_init param0) pkts = some (priv, out) ∧
      ∀ pkt : packet,
        (-2147483648 ≤ -(movements priv (position pkt)).1 ∧
          -(movements priv (position pkt)).1 ≤ 2147483647) ∧
        (∃ q, int_div (to_int (-(movements priv (position pkt)).1))
              cfg.fujitsu_movement_divisor = some q ∧
            -2147483648 ≤ q ∧ q ≤ 2147483647) ∧
        ∃ priv1 out1, fujitsu_scroll_process_packet cfg priv pkt = some (priv1, out1) := by
  obtain ⟨priv, out, h, hl, _⟩ :=
    process_packets_total_of_ne cfg pkts hd (fujitsu_scroll_init param0)
      (fujitsu_scroll_init_last param0)
  refine ⟨priv, out, h, fun pkt => ?_⟩
  have hmb := movement_bounds priv pkt hl
  refine ⟨⟨by omega, by omega⟩, ?_, ?_⟩
  · refine ⟨_, int_div_of_ne _ _ hd ?_, ?_⟩
    · rw [to_int_of_small _ (by omega) (by omega)]
      unfold INT_MIN
      omega
    · rw [to_int_of_small _ (by omega) (by omega)]
      have hq := tdiv_abs_le_abs (-(movements priv (position pkt)).1)
        cfg.fujitsu_movement_divisor
      have ha : |(-(movements priv (position pkt)).1)| ≤ 4095 := by
        rw [abs_le]
        constructor <;> omega
      have hb := abs_le.1 (le_trans hq ha)
      constructor <;> omega
  · obtain ⟨s1, o1, h1, _⟩ := process_packet_total_of_ne cfg priv pkt hd hl
    exact ⟨s1, o1, h1⟩

theorem process_packet_total_on_reachable_witness :
    ∃ priv out, process_packets { default_params with fujitsu_movement_divisor := -1 }
        (fujitsu_scroll_init 0)
        [mk_packet 20 4095 false, mk_packet 20 0 false] = some (priv, out) ∧
      ∀ pkt : packet,
        (-2147483648 ≤ -(movements priv (position pkt)).1 ∧
          -(movements priv (position pkt)).1 ≤ 2147483647) ∧
        (∃ q, int_div (to_int (-(movements priv (position pkt)).1))
              ({ default_params with fujitsu_movement_divisor := -1 } :
                module_params).fujitsu_movement_divisor = some q ∧
            -2147483648 ≤ q ∧ q ≤ 2147483647) ∧
        ∃ priv1 out1, fujitsu_scroll_process_packet
            { default_params with fujitsu_movement_divisor := -1 } priv pkt =
          some (priv1, out1) :=
  process_packet_total_on_reachable { default_params with fujitsu_movement_divisor := -1 } 0
    [mk_packet 20 4095 false, mk_packet 20 0 false] (by decide)

/-- C19: for every packet sequence processed from the zeroed session with a
positive divisor `D`, processing returns and every reported motion delta is
non-zero with magnitude at most `2048 / D` for the wheel and `4095 / D` for the
sensor. -/
theorem emitted_delta_bounds (cfg : module_params) (param0 : Nat) (pkts : List packet)
    (hD : 0 < cfg.fujitsu_movement_divisor) :
    ∃ priv out, process_packets cfg (fujitsu_scroll_init param0) pkts = some (priv, out) ∧
      ∀ code value, input_event.rel code value ∈ out →
        value ≠ 0 ∧ |value| ≤ movement_limit param0 / cfg.fujitsu_movement_divisor :=
  process_packets_delta_bounds cfg param0 pkts hD (fujitsu_scroll_init param0) rfl
    (fujitsu_scroll_init_last param0)

theorem emitted_delta_bounds_witness :
    movement_limit FUJITSU_SCROLL_WHEEL_ID / default_params.fujitsu_movement_divisor = 16 ∧
    movement_limit 0 / default_params.fujitsu_movement_divisor = 31 ∧
    (fujitsu_scroll_init FUJITSU_SCROLL_WHEEL_ID).type =
      fujitsu_scroll_device_type.FUJITSU_SCROLL_WHEEL ∧
    (fujitsu_scroll_init 0).type = fujitsu_scroll_device_type.FUJITSU_SCROLL_SENSOR ∧
    ∃ priv out, process_packets default_params (fujitsu_scroll_init FUJITSU_SCROLL_WHEEL_ID)
        [mk_packet 20 0 false, mk_packet 20 2048 false] = some (priv, out) ∧
      ∀ code value, input_event.rel code value ∈ out →
        value ≠ 0 ∧ |value| ≤ movement_limit FUJITSU_SCROLL_WHEEL_ID /
          default_params.fujitsu_movement_divisor :=
  ⟨by decide, by decide, by decide, by decide,
    emitted_delta_bounds default_params FUJITSU_SCROLL_WHEEL_ID
      [mk_packet 20 0 false, mk_packet 20 2048 false] (by decide)⟩

/-- C20: two session states with `finger_down` clear that differ only in the
value of `ignore_event` report identical motion-event sequences for every
configuration and every sequence of packets (and trap on the same sequences):
the flag is overwritten from `guard_area_touched_prev` when the next touch
starts. -/
theorem stale_ignore_event_unobservable (cfg : module_params) (priv : fujitsu_scroll_data)
    (b : Bool) (pkts : List packet) (hidle : priv.finger_down = false) :
    (process_packets cfg priv pkts).map (fun r => motion_events r.2) =
      (process_packets cfg { priv with ignore_event := b } pkts).map
        (fun r => motion_events r.2) := by
  have h := congrArg (Option.map motion_events)
    (process_packets_ignore_event_irrelevant cfg pkts priv b hidle)
  rw [Option.map_map, Option.map_map] at h
  exact h

theorem stale_ignore_event_unobservable_witness :
    (process_packets default_params
        { fujitsu_scroll_init 0 with ignore_event := false }
        [mk_packet 20 0 false, mk_packet 20 300 false]).map (fun r => motion_events r.2) =
      (process_packets default_params
        { ({ fujitsu_scroll_init 0 with ignore_event := false } : fujitsu_scroll_data) with
            ignore_event := true }
        [mk_packet 20 0 false, mk_packet 20 300 false]).map (fun r => motion_events r.2) :=
  stale_ignore_event_unobservable default_params
    { fujitsu_scroll_init 0 with ignore_event := false } true
    [mk_packet 20 0 false, mk_packet 20 300 false] (by decide)

end FujitsuScroll
